import Mathlib

/-!
Verification development for the BeagleG motion-planning core
(`gcode-machine-control` C++ implementation).

The arithmetic of the source is IEEE `float`; it is modelled here with exact
real numbers: `sqrtf` becomes `Real.sqrt`, `atan2f` becomes `Complex.arg`,
float literals are read as the rationals they denote, and the float literal
`3.14159265359` (π at float precision) is modelled as `Real.pi`.
Machine integers (`int` step counts) are modelled as `ℤ`, with the C
`(int)` cast as truncation toward zero and `roundf` as rounding half away
from zero.  The number of physical motor drivers `BEAGLEG_NUM_MOTORS` is
declared in a header that is not part of the sources; the development is
parametric in that count `M`.
-/

namespace BeagleG

/-- Logical axes, in the order of `enum GCodeParserAxes: XYZEABCUVW`
(comment at the head of the source's default-settings block). -/
inductive Axis : Type
  | X | Y | Z | E | A | B | C | U | V | W
deriving DecidableEq, Repr

open Axis

/-- The axes in enumeration order, as iterated by every
`for (i = 0; i < GCODE_NUM_AXES; ++i)` loop of the source. -/
def axisList : List Axis := [X, Y, Z, E, A, B, C, U, V, W]

/-- Position of an axis in the enumeration (used for `axes_bitmap` tests). -/
def Axis.idx : Axis → ℕ
  | X => 0 | Y => 1 | Z => 2 | E => 3 | A => 4
  | B => 5 | C => 6 | U => 7 | V => 8 | W => 9

instance : Fintype Axis :=
  ⟨⟨{X, Y, Z, E, A, B, C, U, V, W}, by decide⟩, fun a => by cases a <;> decide⟩

/-- `struct AxisTarget`: an entry of the planning buffer. -/
structure AxisTarget : Type where
  position_steps : Axis → ℤ
  delta_steps : Axis → ℤ
  defining_axis : Axis
  speed : ℝ
  angle : ℝ
  aux_bits : ℕ

/-- `struct MotorMovement` with `M` physical drivers. -/
structure MotorMovement (M : ℕ) : Type where
  steps : Fin M → ℤ
  v0 : ℝ
  v1 : ℝ
  aux_bits : ℕ

/-- `struct EndstopConfig` (bitfields widened to `Bool`/`ℕ`). -/
structure EndstopConfig : Type where
  trigger_value : Bool
  homing_use : Bool
  endstop_number : ℕ

/-- `enum HomingState`. -/
inductive HomingState : Type
  | NEVER_HOMED | HOMED_BUT_MOTORS_UNPOWERED | HOMED
deriving DecidableEq, Repr

/-- Configuration plus the derived per-axis data of `GCodeMachineControl::Impl`
(`cfg_`, `max_axis_speed_`, `max_axis_accel_`, `axis_to_driver_`,
`axis_flip_`, `driver_flip_`, endstop maps), for `M` motor drivers. -/
structure Machine (M : ℕ) : Type where
  steps_per_mm : Axis → ℝ
  move_range_mm : Axis → ℝ
  max_axis_speed : Axis → ℝ
  max_axis_accel : Axis → ℝ
  g0_feedrate : ℝ
  speed_factor : ℝ
  threshold_angle : ℝ
  require_homing : Bool
  range_check : Bool
  synchronous : Bool
  axis_to_driver : Axis → Fin M → Bool
  axis_flip : Axis → ℤ
  driver_flip : Fin M → ℤ
  min_endstop : Axis → EndstopConfig
  max_endstop : Axis → EndstopConfig
  home_order : List Char

/-- Mutable state of `GCodeMachineControl::Impl`: the planning buffer
(oldest entry first, `back()` is the last element), the homing state, the
auxiliary-bit mask, the remembered feedrate, the M220 speed factor, the
display origin, and the diagnostics written to `msg_stream_` (each
`mprintf` is recorded as its format string). -/
structure MachineState : Type where
  buffer : List AxisTarget
  homing_state : HomingState
  aux_bits : ℕ
  current_feedrate : ℝ
  prog_speed_factor : ℝ
  origin : Axis → ℝ
  msgs : List String

noncomputable section

/-- `round2int` = `(int) roundf(x)`: rounding half away from zero. -/
def round2int (x : ℝ) : ℤ := if x < 0 then -⌊-x + 1/2⌋ else ⌊x + 1/2⌋

/-- The C `(int)` cast applied to a `float`: truncation toward zero. -/
def truncInt (x : ℝ) : ℤ := if x < 0 then -⌊-x⌋ else ⌊x⌋

/-- `euclid_distance`. -/
def euclid_distance (x y z : ℝ) : ℝ := Real.sqrt (x * x + y * y + z * z)

/-- `steps_for_speed_change(a, v0, *v1, max_steps)`: returns the number of
steps needed to change speed from `v0` to `v1` under acceleration `a`,
together with the (possibly corrected) value written back through `*v1`.
The `t < 0` branch only emits a diagnostic on `stderr` and is not modelled. -/
def steps_for_speed_change (a v0 v1 : ℝ) (max_steps : ℤ) : ℝ × ℝ :=
  let t := (v1 - v0) / a
  let steps := a / 2 * t * t + v0 * t
  if steps ≤ (max_steps : ℝ) then (steps, v1)
  else ((max_steps : ℝ), Real.sqrt (v0 * v0 + 2 * a * (max_steps : ℝ)))

/-- `get_peak_speed(s, v0, v2, a)`. -/
def get_peak_speed (s v0 v2 a : ℝ) : ℝ :=
  Real.sqrt (v2 * v2 + v0 * v0 + 2 * a * s) / Real.sqrt 2

/-- `get_speed_factor_for_axis`. -/
def get_speed_factor_for_axis (t : AxisTarget) (request_axis : Axis) : ℝ :=
  if t.delta_steps t.defining_axis = 0 then 0
  else (t.delta_steps request_axis : ℝ) / (t.delta_steps t.defining_axis : ℝ)

/-- `get_speed_for_axis`. -/
def get_speed_for_axis (target : AxisTarget) (request_axis : Axis) : ℝ :=
  target.speed * get_speed_factor_for_axis target request_axis

/-- `within_acceptable_range(new_val, old_val, fraction)`. -/
def within_acceptable_range (new_val old_val fraction : ℝ) : Prop :=
  old_val - fraction * old_val ≤ new_val ∧ new_val ≤ old_val + fraction * old_val

instance (new_val old_val fraction : ℝ) :
    Decidable (within_acceptable_range new_val old_val fraction) :=
  instDecidableAnd

/-- The per-axis loop of `determine_joining_speed`, carried out over the
remaining axes with the running `is_first` flag and
`from_defining_speed` accumulator; every `return 0.0f` of the source is an
immediate result `0`. -/
def djsLoop (fromT toT : AxisTarget) (threshold angle : ℝ) :
    List Axis → Bool → ℝ → ℝ
  | [], _, fds => fds
  | ai :: rest, is_first, fds =>
    if angle < threshold then djsLoop fromT toT threshold angle rest is_first fds
    else
      let from_delta := fromT.delta_steps ai
      let to_delta := toT.delta_steps ai
      if from_delta = 0 ∧ to_delta = 0 then
        djsLoop fromT toT threshold angle rest is_first fds
      else if from_delta = 0 ∨ to_delta = 0 then 0
      else if (from_delta < 0 ∧ 0 < to_delta) ∨ (0 < from_delta ∧ to_delta < 0) then 0
      else
        let to_speed := get_speed_for_axis toT ai
        let speed_conversion :=
          (fromT.delta_steps fromT.defining_axis : ℝ) / (from_delta : ℝ)
        let goal := to_speed * speed_conversion
        if goal < 0 then 0
        else if is_first = true ∨ within_acceptable_range goal fds 1e-5 then
          djsLoop fromT toT threshold angle rest false
            (if goal < fds then goal else fds)
        else 0

/-- `determine_joining_speed(from, to, threshold, angle)`. -/
def determine_joining_speed (fromT toT : AxisTarget) (threshold angle : ℝ) : ℝ :=
  djsLoop fromT toT threshold angle axisList true fromT.speed

variable {M : ℕ}

/-- `assign_steps_to_motors(command, axis, steps)`: every driver whose bit is
set in `axis_to_driver_[axis]` receives
`axis_flip_[axis] * driver_flip_[motor] * steps`; the other drivers keep
their previous contents. -/
def assign_steps_to_motors (m : Machine M) (command : MotorMovement M)
    (axis : Axis) (steps : ℤ) : MotorMovement M :=
  { command with
    steps := fun motor =>
      if m.axis_to_driver axis motor = true then
        m.axis_flip axis * m.driver_flip motor * steps
      else command.steps motor }

/-- `substract_steps(value, substract)`: the difference command, together
with the returned flag (`true` iff some driver's step count is nonzero). -/
def substract_steps (value subtractTerm : MotorMovement M) :
    MotorMovement M × Bool :=
  ({ value with steps := fun i => value.steps i - subtractTerm.steps i },
   decide (∃ i, value.steps i - subtractTerm.steps i ≠ 0))

/-- A `struct MotorMovement command = {0}` with the aux bits of the target
(the common settings copied by the two `memcpy`s). -/
def baseCommand (aux : ℕ) : MotorMovement M :=
  { steps := fun _ => 0, v0 := 0, v1 := 0, aux_bits := aux }

/-- A `for (i = 0; i < GCODE_NUM_AXES; ++i) assign_steps_to_motors(...)`
loop, assigning `f i` steps for axis `i`. -/
def assignAllAxes (m : Machine M) (base : MotorMovement M) (f : Axis → ℤ) :
    MotorMovement M :=
  axisList.foldl (fun cmd i => assign_steps_to_motors m cmd i (f i)) base

/-!
The body of `GCodeMachineControl::Impl::move_machine_steps`, split into its
successive local computations.  Each stage takes the same arguments
`(m, last, target, upcoming)` as the member function
(`last_pos`, `target_pos`, `upcoming`).
-/

/-- `last_speed = fabsf(get_speed_for_axis(last_pos, defining_axis))`. -/
def mmsLastSpeed (last target : AxisTarget) : ℝ :=
  |get_speed_for_axis last target.defining_axis|

/-- `next_speed = determine_joining_speed(target_pos, upcoming,
cfg_.threshold_angle, fabsf(last_pos->angle - target_pos->angle))`. -/
def mmsNextSpeed (m : Machine M) (last target upcoming : AxisTarget) : ℝ :=
  determine_joining_speed target upcoming m.threshold_angle
    |last.angle - target.angle|

/-- `abs_defining_axis_steps = abs(axis_steps[defining_axis])`. -/
def mmsAbsSteps (target : AxisTarget) : ℤ :=
  |target.delta_steps target.defining_axis|

/-- `acceleration_for_move(axis_steps, defining_axis)`: the source returns
`max_axis_accel_[defining_axis]` (scaling by other axes is a TODO). -/
def acceleration_for_move (m : Machine M) (target : AxisTarget) : ℝ :=
  m.max_axis_accel target.defining_axis

/-- `peak_speed = get_peak_speed(abs_defining_axis_steps, last_speed,
next_speed, a)`. -/
def mmsPeakSpeed (m : Machine M) (last target upcoming : AxisTarget) : ℝ :=
  get_peak_speed (mmsAbsSteps target : ℝ) (mmsLastSpeed last target)
    (mmsNextSpeed m last target upcoming) (acceleration_for_move m target)

/-- `if (peak_speed < target_pos->speed) target_pos->speed = peak_speed`:
the target speed after the peak-speed clamp. -/
def mmsClampedSpeed (m : Machine M) (last target upcoming : AxisTarget) : ℝ :=
  if mmsPeakSpeed m last target upcoming < target.speed then
    mmsPeakSpeed m last target upcoming
  else target.speed

/-- The accel ternary: the pair of `accel_fraction` and the value of
`target_pos->speed` after `steps_for_speed_change` possibly corrected it. -/
def mmsAccelPair (m : Machine M) (last target upcoming : AxisTarget) : ℝ × ℝ :=
  if mmsLastSpeed last target < mmsClampedSpeed m last target upcoming then
    let p := steps_for_speed_change (acceleration_for_move m target)
      (mmsLastSpeed last target) (mmsClampedSpeed m last target upcoming)
      (mmsAbsSteps target)
    (p.1 / (mmsAbsSteps target : ℝ), p.2)
  else (0, mmsClampedSpeed m last target upcoming)

/-- `accel_fraction`. -/
def mmsAccelFraction (m : Machine M) (last target upcoming : AxisTarget) : ℝ :=
  (mmsAccelPair m last target upcoming).1

/-- The value of `target_pos->speed` after the accel computation. -/
def mmsSpeedAfterAccel (m : Machine M) (last target upcoming : AxisTarget) : ℝ :=
  (mmsAccelPair m last target upcoming).2

/-- `decel_fraction` (the written-back `dummy_next_speed` is discarded). -/
def mmsDecelFraction (m : Machine M) (last target upcoming : AxisTarget) : ℝ :=
  if mmsNextSpeed m last target upcoming < mmsSpeedAfterAccel m last target upcoming then
    (steps_for_speed_change (-acceleration_for_move m target)
      (mmsSpeedAfterAccel m last target upcoming)
      (mmsNextSpeed m last target upcoming) (mmsAbsSteps target)).1 /
      (mmsAbsSteps target : ℝ)
  else 0

/-- `const int accel_decel_steps = (accel_fraction + decel_fraction) *
abs_defining_axis_steps` (a C `(int)` conversion, truncating toward zero). -/
def mmsAccelDecelSteps (m : Machine M) (last target upcoming : AxisTarget) : ℤ :=
  truncInt ((mmsAccelFraction m last target upcoming +
    mmsDecelFraction m last target upcoming) * (mmsAbsSteps target : ℝ))

/-- `accel_decel_mm = accel_decel_steps / cfg_.steps_per_mm[defining_axis]`. -/
def mmsAccelDecelMM (m : Machine M) (last target upcoming : AxisTarget) : ℝ :=
  (mmsAccelDecelSteps m last target upcoming : ℝ) /
    m.steps_per_mm target.defining_axis

/-- `do_accel = (accel_decel_mm > 2 || accel_decel_steps > 16)`. -/
def mmsDoAccel (m : Machine M) (last target upcoming : AxisTarget) : Prop :=
  2 < mmsAccelDecelMM m last target upcoming ∨
    16 < mmsAccelDecelSteps m last target upcoming

instance (m : Machine M) (last target upcoming : AxisTarget) :
    Decidable (mmsDoAccel m last target upcoming) := instDecidableOr

/-- The guard `do_accel && accel_fraction * abs_defining_axis_steps > 0` of
the accel-emitting block (`has_accel`). -/
def mmsHasAccel (m : Machine M) (last target upcoming : AxisTarget) : Prop :=
  mmsDoAccel m last target upcoming ∧
    0 < mmsAccelFraction m last target upcoming * (mmsAbsSteps target : ℝ)

instance (m : Machine M) (last target upcoming : AxisTarget) :
    Decidable (mmsHasAccel m last target upcoming) := instDecidableAnd

/-- The guard `do_accel && decel_fraction * abs_defining_axis_steps > 0` of
the decel-emitting block (`has_decel`). -/
def mmsHasDecel (m : Machine M) (last target upcoming : AxisTarget) : Prop :=
  mmsDoAccel m last target upcoming ∧
    0 < mmsDecelFraction m last target upcoming * (mmsAbsSteps target : ℝ)

instance (m : Machine M) (last target upcoming : AxisTarget) :
    Decidable (mmsHasDecel m last target upcoming) := instDecidableAnd

/-- The `accel_command` as enqueued: populated only when `has_accel`,
with `v0 = last_speed`, `v1 = target_pos->speed`, and per-axis steps
`round2int(accel_fraction * axis_steps[i])`. -/
def mmsAccelCmd (m : Machine M) (last target upcoming : AxisTarget) :
    MotorMovement M :=
  if mmsHasAccel m last target upcoming then
    { assignAllAxes m (baseCommand target.aux_bits)
        (fun i => round2int (mmsAccelFraction m last target upcoming *
          (target.delta_steps i : ℝ))) with
      v0 := mmsLastSpeed last target,
      v1 := mmsSpeedAfterAccel m last target upcoming }
  else baseCommand target.aux_bits

/-- The `decel_command` as enqueued: populated only when `has_decel`,
with `v0 = target_pos->speed`, `v1 = next_speed`, and per-axis steps
`round2int(decel_fraction * axis_steps[i])`. -/
def mmsDecelCmd (m : Machine M) (last target upcoming : AxisTarget) :
    MotorMovement M :=
  if mmsHasDecel m last target upcoming then
    { assignAllAxes m (baseCommand target.aux_bits)
        (fun i => round2int (mmsDecelFraction m last target upcoming *
          (target.delta_steps i : ℝ))) with
      v0 := mmsSpeedAfterAccel m last target upcoming,
      v1 := mmsNextSpeed m last target upcoming }
  else baseCommand target.aux_bits

/-- The `move_command` before the subtractions: aux bits of the target,
`v0 = v1 = target_pos->speed` (the speed as it was on entry, lines 596-597
precede the peak-speed clamp), and all of `axis_steps` assigned. -/
def mmsMoveCmdFull (m : Machine M) (target : AxisTarget) : MotorMovement M :=
  assignAllAxes m
    { steps := fun _ => 0, v0 := target.speed, v1 := target.speed,
      aux_bits := target.aux_bits }
    target.delta_steps

/-- The `move_command` after subtracting the accel and decel steps. -/
def mmsMoveCmd (m : Machine M) (last target upcoming : AxisTarget) :
    MotorMovement M :=
  (substract_steps
    (substract_steps (mmsMoveCmdFull m target)
      (mmsAccelCmd m last target upcoming)).1
    (mmsDecelCmd m last target upcoming)).1

/-- `has_move = substract_steps(&move_command, &decel_command)`. -/
def mmsHasMove (m : Machine M) (last target upcoming : AxisTarget) : Bool :=
  (substract_steps
    (substract_steps (mmsMoveCmdFull m target)
      (mmsAccelCmd m last target upcoming)).1
    (mmsDecelCmd m last target upcoming)).2

/-- The value of `target_pos->speed` when the function returns: the decel
block overwrites it with `next_speed`, otherwise it stays at its value
after the accel computation. -/
def mmsFinalSpeed (m : Machine M) (last target upcoming : AxisTarget) : ℝ :=
  if mmsHasDecel m last target upcoming then mmsNextSpeed m last target upcoming
  else mmsSpeedAfterAccel m last target upcoming

/-- The commands passed to `motor_ops_->Enqueue`, in order. -/
def mmsEmitted (m : Machine M) (last target upcoming : AxisTarget) :
    List (MotorMovement M) :=
  (if mmsHasAccel m last target upcoming then
    [mmsAccelCmd m last target upcoming] else []) ++
  (if mmsHasMove m last target upcoming = true then
    [mmsMoveCmd m last target upcoming] else []) ++
  (if mmsHasDecel m last target upcoming then
    [mmsDecelCmd m last target upcoming] else [])

/-- Result of `move_machine_steps`: the target as left behind (its `speed`
field is updated in place by the source) and the enqueued commands. -/
structure SegmenterResult (M : ℕ) : Type where
  target : AxisTarget
  emitted : List (MotorMovement M)

/-- `GCodeMachineControl::Impl::move_machine_steps(last_pos, target_pos,
upcoming)`: returns immediately on a zero defining-axis delta, otherwise
emits up to three segments and updates `target_pos->speed`. -/
def move_machine_steps (m : Machine M) (last target upcoming : AxisTarget) :
    SegmenterResult M :=
  if target.delta_steps target.defining_axis = 0 then ⟨target, []⟩
  else
    ⟨{ target with speed := mmsFinalSpeed m last target upcoming },
     mmsEmitted m last target upcoming⟩

/-- An all-zero `AxisTarget` (the boot-time pose with no endstops). -/
def dummyTarget : AxisTarget :=
  { position_steps := fun _ => 0, delta_steps := fun _ => 0,
    defining_axis := X, speed := 0, angle := 0, aux_bits := 0 }

/-- `planning_buffer_.back()`: the most recently appended entry.  The buffer
is never empty in the source (construction appends the initial position);
on an empty list the all-zero target is returned. -/
def back (l : List AxisTarget) : AxisTarget := l.getLastD dummyTarget

/-- `issue_motor_move_if_possible`: with at least three buffered targets,
run the segmenter on `(buffer[0], buffer[1], buffer[2])` — which updates
`buffer[1]->speed` in place — and `pop_front()`. -/
def issue_motor_move_if_possible (m : Machine M) (s : MachineState) :
    MachineState :=
  match s.buffer with
  | t0 :: t1 :: t2 :: rest =>
    { s with buffer := (move_machine_steps m t0 t1 t2).target :: t2 :: rest }
  | _ => s

/-- `atan2f(y, x)` over the reals: the argument of the complex number
`x + iy` (in `(-π, π]`, with `atan2 0 0 = 0`). -/
def atan2 (y x : ℝ) : ℝ := Complex.arg ⟨x, y⟩

/-!
The body of `GCodeMachineControl::Impl::machine_move` (lines 717-771),
split into its successive local computations.
-/

/-- `new_pos->position_steps[i] = round2int(axis[i] * cfg_.steps_per_mm[i])`. -/
def mmtPosition (m : Machine M) (axes : Axis → ℝ) : Axis → ℤ :=
  fun i => round2int (axes i * m.steps_per_mm i)

/-- `new_pos->delta_steps[i] = new_pos->position_steps[i] -
previous->position_steps[i]`. -/
def mmtDelta (m : Machine M) (previous : AxisTarget) (axes : Axis → ℝ) :
    Axis → ℤ :=
  fun i => mmtPosition m axes i - previous.position_steps i

/-- The defining-axis search: `max_steps = -1`, and every axis whose
`abs(delta_steps)` strictly exceeds the running maximum takes over. -/
def mmtFold (m : Machine M) (previous : AxisTarget) (axes : Axis → ℝ) :
    ℤ × Axis :=
  axisList.foldl
    (fun acc i => if acc.1 < |mmtDelta m previous axes i| then
      (|mmtDelta m previous axes i|, i) else acc)
    ((-1 : ℤ), X)

/-- The `max_steps` found by the defining-axis search. -/
def mmtMaxSteps (m : Machine M) (previous : AxisTarget) (axes : Axis → ℝ) :
    ℤ :=
  (mmtFold m previous axes).1

/-- The defining axis found by the search. -/
def mmtDefining (m : Machine M) (previous : AxisTarget) (axes : Axis → ℝ) :
    Axis :=
  (mmtFold m previous axes).2

/-- `defining_axis == AXIS_X || defining_axis == AXIS_Y ||
defining_axis == AXIS_Z`. -/
def mmtIsCartesian (m : Machine M) (previous : AxisTarget)
    (axes : Axis → ℝ) : Prop :=
  mmtDefining m previous axes = X ∨ mmtDefining m previous axes = Y ∨
    mmtDefining m previous axes = Z

instance (m : Machine M) (previous : AxisTarget) (axes : Axis → ℝ) :
    Decidable (mmtIsCartesian m previous axes) := instDecidableOr

/-- The real-world Z component `delta_steps[AXIS_Z] / steps_per_mm[AXIS_Z]`
(and likewise for X and Y below). -/
def mmtZ (m : Machine M) (previous : AxisTarget) (axes : Axis → ℝ) : ℝ :=
  (mmtDelta m previous axes Z : ℝ) / m.steps_per_mm Z

/-- The real-world X component of the delta. -/
def mmtX (m : Machine M) (previous : AxisTarget) (axes : Axis → ℝ) : ℝ :=
  (mmtDelta m previous axes X : ℝ) / m.steps_per_mm X

/-- The real-world Y component of the delta. -/
def mmtY (m : Machine M) (previous : AxisTarget) (axes : Axis → ℝ) : ℝ :=
  (mmtDelta m previous axes Y : ℝ) / m.steps_per_mm Y

/-- `euclid_fraction = fabsf(defining_axis_len_mm) / total_xyz_len_mm`. -/
def mmtEuclidFraction (m : Machine M) (previous : AxisTarget)
    (axes : Axis → ℝ) : ℝ :=
  |(mmtDelta m previous axes (mmtDefining m previous axes) : ℝ) /
      m.steps_per_mm (mmtDefining m previous axes)| /
    euclid_distance (mmtX m previous axes) (mmtY m previous axes)
      (mmtZ m previous axes)

/-- `travel_speed` after the (conditional) Euclidean correction. -/
def mmtTravelSpeed (m : Machine M) (previous : AxisTarget) (feedrate : ℝ)
    (axes : Axis → ℝ) : ℝ :=
  let base := feedrate * m.steps_per_mm (mmtDefining m previous axes)
  if mmtIsCartesian m previous axes then
    base * mmtEuclidFraction m previous axes
  else base

/-- `new_pos->speed`: zero when nothing moves, otherwise the travel speed
clamped at `max_axis_speed_[defining_axis]`. -/
def mmtSpeed (m : Machine M) (previous : AxisTarget) (feedrate : ℝ)
    (axes : Axis → ℝ) : ℝ :=
  if 0 < mmtMaxSteps m previous axes then
    if m.max_axis_speed (mmtDefining m previous axes) <
        mmtTravelSpeed m previous feedrate axes then
      m.max_axis_speed (mmtDefining m previous axes)
    else mmtTravelSpeed m previous feedrate axes
  else 0

/-- `new_pos->angle`: the default `previous->angle + 180`, overwritten with
`(atan2f(y, x) / pi) * 180` for a moving, Cartesian-defined, pure-XY
vector.  The source divides by the float literal `3.14159265359`,
modelled as π. -/
def mmtAngle (m : Machine M) (previous : AxisTarget) (axes : Axis → ℝ) : ℝ :=
  if 0 < mmtMaxSteps m previous axes ∧ mmtIsCartesian m previous axes ∧
      mmtZ m previous axes = 0 then
    atan2 (mmtY m previous axes) (mmtX m previous axes) / Real.pi * 180
  else previous.angle + 180

/-- The `AxisTarget` built and appended by `machine_move`. -/
def machineMoveTarget (m : Machine M) (previous : AxisTarget) (aux : ℕ)
    (feedrate : ℝ) (axes : Axis → ℝ) : AxisTarget :=
  { position_steps := mmtPosition m axes,
    delta_steps := mmtDelta m previous axes,
    defining_axis := mmtDefining m previous axes,
    speed := mmtSpeed m previous feedrate axes,
    angle := mmtAngle m previous axes,
    aux_bits := aux }

/-- `machine_move(feedrate, axes)`: append the built target, then
`issue_motor_move_if_possible()`. -/
def machine_move (m : Machine M) (s : MachineState) (feedrate : ℝ)
    (axes : Axis → ℝ) : MachineState :=
  let new_pos := machineMoveTarget m (back s.buffer) s.aux_bits feedrate axes
  issue_motor_move_if_possible m { s with buffer := s.buffer ++ [new_pos] }

/-- The diagnostic printed when a move is attempted before homing. -/
def homeFirstMsg : String := "// ERROR: please home machine first (G28).\n"

/-- `test_homing_status_ok()`: the boolean result and the diagnostics
written in the failing case. -/
def test_homing_status_ok (m : Machine M) (s : MachineState) :
    Bool × List String :=
  if m.require_homing = false then (true, [])
  else if s.homing_state ≠ HomingState.NEVER_HOMED then (true, [])
  else (false, [homeFirstMsg])

/-- The per-axis loop of `test_within_machine_limits` (diagnostics recorded
as the `mprintf` format strings). -/
def twmlLoop (m : Machine M) (s : MachineState) (axes : Axis → ℝ) :
    List Axis → Bool × List String
  | [] => (true, [])
  | i :: rest =>
    if axes i < 0 then
      (false,
       [if s.origin i ≠ 0 then
          "// ERROR outside machine limit: Axis %c < min allowed %+.1fmm in current coordinate system. Ignoring move!\n"
        else
          "// ERROR outside machine limit: Axis %c < 0. Ignoring move!\n"])
    else if m.move_range_mm i ≤ 0 then twmlLoop m s axes rest
    else if m.move_range_mm i < axes i then
      (false,
       [if s.origin i ≠ 0 then
          "// ERROR outside machine limit: Axis %c > max allowed %+.1fmm in current coordinate system (=%.1fmm machine absolute). Ignoring move!\n"
        else
          "// ERROR outside machine limit: Axis %c > %.1fmm. Ignoring move!\n"])
    else twmlLoop m s axes rest

/-- `test_within_machine_limits(axes)`. -/
def test_within_machine_limits (m : Machine M) (s : MachineState)
    (axes : Axis → ℝ) : Bool × List String :=
  if m.range_check = false then (true, [])
  else twmlLoop m s axes axisList

/-- `coordinated_move(feed, axis)`. -/
def coordinated_move (m : Machine M) (s : MachineState) (feed : ℝ)
    (axes : Axis → ℝ) : Bool × MachineState :=
  let h := test_homing_status_ok m s
  if h.1 = false then (false, { s with msgs := s.msgs ++ h.2 })
  else
    let l := test_within_machine_limits m s axes
    if l.1 = false then (false, { s with msgs := s.msgs ++ l.2 })
    else
      let s1 := if 0 < feed then
        { s with current_feedrate := m.speed_factor * feed } else s
      (true, machine_move m s1 (s1.prog_speed_factor * s1.current_feedrate) axes)

/-- `rapid_move(feed, axis)`. -/
def rapid_move (m : Machine M) (s : MachineState) (feed : ℝ)
    (axes : Axis → ℝ) : Bool × MachineState :=
  let h := test_homing_status_ok m s
  if h.1 = false then (false, { s with msgs := s.msgs ++ h.2 })
  else
    let l := test_within_machine_limits m s axes
    if l.1 = false then (false, { s with msgs := s.msgs ++ l.2 })
    else
      let given := m.speed_factor * s.prog_speed_factor * feed
      (true, machine_move m s (if 0 < given then given else m.g0_feedrate) axes)

/-- The target appended by `bring_path_to_halt`: previous position, zero
deltas, defining axis `AXIS_X`, zero speed, current aux bits.  The source
leaves the `angle` field unassigned (stale ring-buffer memory); it is
modelled by the explicit parameter `junkAngle`. -/
def haltSentinel (previous : AxisTarget) (aux : ℕ) (junkAngle : ℝ) :
    AxisTarget :=
  { position_steps := previous.position_steps, delta_steps := fun _ => 0,
    defining_axis := X, speed := 0, angle := junkAngle, aux_bits := aux }

/-- `bring_path_to_halt()`. -/
def bring_path_to_halt (m : Machine M) (s : MachineState) (junkAngle : ℝ) :
    MachineState :=
  issue_motor_move_if_possible m
    { s with buffer :=
        s.buffer ++ [haltSentinel (back s.buffer) s.aux_bits junkAngle] }

/-- The diagnostic printed for a rejected M220 factor. -/
def m220Msg : String :=
  "// M220: Not accepting speed factors < 0.5%% (got %.1f%%)\n"

/-- `set_speed_factor(value)` (M220). -/
def set_speed_factor (s : MachineState) (value : ℝ) : MachineState :=
  let v := if value < 0 then 1 + value else value
  if v < 0.005 then { s with msgs := s.msgs ++ [m220Msg] }
  else { s with prog_speed_factor := v }

/-- `get_endstop_gpio_descriptor(config)`: endstop numbers 1..6 map to the
(nonzero) `END_k_GPIO` hardware descriptors, everything else to 0.
Modelled from the spec: the `END_k_GPIO` values come from a hardware
header that is not part of the sources; each is represented by its
(nonzero) endstop number. -/
def get_endstop_gpio_descriptor (config : EndstopConfig) : ℕ :=
  if 1 ≤ config.endstop_number ∧ config.endstop_number ≤ 6 then
    config.endstop_number
  else 0

/-- `GetHomeEndstop(axis, &dir, &trigger_value)`: the direction, trigger
value and GPIO descriptor (0 when the axis has no homing endstop). -/
def GetHomeEndstop (m : Machine M) (axis : Axis) : ℤ × Bool × ℕ :=
  let p := if (m.min_endstop axis).endstop_number ≠ 0 ∧
      (m.min_endstop axis).homing_use = true then
    ((-1 : ℤ), m.min_endstop axis)
  else (1, m.max_endstop axis)
  if p.2.homing_use = false then (p.1, p.2.trigger_value, 0)
  else (p.1, p.2.trigger_value, get_endstop_gpio_descriptor p.2)

/-- Replace the last element of a list by `f` of it. -/
def modifyBack (l : List AxisTarget) (f : AxisTarget → AxisTarget) :
    List AxisTarget :=
  match l with
  | [] => []
  | _ :: _ => l.dropLast ++ [f (back l)]

/-- `home_axis(axis)`: without a homing endstop the function returns
immediately; otherwise it drives to the endstop (the `move_to_endstop`
polling loop only feeds the external motor queue and is not part of the
planner state) and rewrites the last buffered position of that axis to the
home position. -/
def home_axis (m : Machine M) (s : MachineState) (axis : Axis) :
    MachineState :=
  let e := GetHomeEndstop m axis
  if e.2.2 = 0 then s
  else
    let home_pos : ℝ := if e.1 < 0 then 0 else m.move_range_mm axis
    let homeSteps := round2int (home_pos * m.steps_per_mm axis)
    { s with buffer := modifyBack s.buffer (fun t =>
        { t with position_steps := Function.update t.position_steps axis homeSteps }) }

/-- `gcodep_letter2axis`.  Modelled from the spec: the parser maps the axis
letters XYZEABCUVW (either case) to axes and everything else to
`GCODE_NUM_AXES` (here `none`); the letter2axis routine itself lives in the
gcode-parser, which is not part of the sources. -/
def gcodep_letter2axis (c : Char) : Option Axis :=
  match c with
  | 'X' => some X | 'x' => some X
  | 'Y' => some Y | 'y' => some Y
  | 'Z' => some Z | 'z' => some Z
  | 'E' => some E | 'e' => some E
  | 'A' => some A | 'a' => some A
  | 'B' => some B | 'b' => some B
  | 'C' => some C | 'c' => some C
  | 'U' => some U | 'u' => some U
  | 'V' => some V | 'v' => some V
  | 'W' => some W | 'w' => some W
  | _ => none

/-- `go_home(axes_bitmap)`: halt the path, home the requested axes in
configured order, then set the homing state to `HOMED`. -/
def go_home (m : Machine M) (s : MachineState) (axes_bitmap : ℕ)
    (junkAngle : ℝ) : MachineState :=
  let s1 := bring_path_to_halt m s junkAngle
  let s2 := m.home_order.foldl (fun st c =>
    match gcodep_letter2axis c with
    | none => st
    | some axis =>
      if axes_bitmap.testBit axis.idx = false then st
      else home_axis m st axis) s1
  { s2 with homing_state := HomingState.HOMED }

/-!
Concrete machines and targets used to evaluate the model at specific
inputs.  Unset fields are zero / trivial.
-/

/-- A blank machine configuration (threshold angle 10° as in the source's
`MachineControlConfig` constructor, speed factor 1). -/
def zeroMachine (M : ℕ) : Machine M :=
  { steps_per_mm := fun _ => 1, move_range_mm := fun _ => 0,
    max_axis_speed := fun _ => 0, max_axis_accel := fun _ => 0,
    g0_feedrate := 0, speed_factor := 1, threshold_angle := 10,
    require_homing := false, range_check := false, synchronous := false,
    axis_to_driver := fun _ _ => false, axis_flip := fun _ => 1,
    driver_flip := fun _ => 1,
    min_endstop := fun _ => ⟨false, false, 0⟩,
    max_endstop := fun _ => ⟨false, false, 0⟩,
    home_order := [] }

/-- Machine for the micro-segment-suppression boundary run:
X at 160 steps/mm, accel 1 step/s² on X. -/
def exM4 : Machine 1 :=
  { zeroMachine 1 with
    steps_per_mm := fun i => if i = X then 160 else 1,
    max_axis_accel := fun i => if i = X then 1 else 0 }

/-- Previous segment for the boundary run: one X step at speed 4. -/
def exLast4 : AxisTarget :=
  { position_steps := fun _ => 0,
    delta_steps := fun i => if i = X then 1 else 0,
    defining_axis := X, speed := 4, angle := 0, aux_bits := 0 }

/-- Target for the boundary run: 20 X steps at requested speed 5. -/
def exTarget4 : AxisTarget :=
  { position_steps := fun _ => 0,
    delta_steps := fun i => if i = X then 20 else 0,
    defining_axis := X, speed := 5, angle := 180, aux_bits := 0 }

/-- Upcoming segment for the boundary run: 20 X steps at speed 1. -/
def exUp4 : AxisTarget :=
  { position_steps := fun _ => 0,
    delta_steps := fun i => if i = X then 20 else 0,
    defining_axis := X, speed := 1, angle := 0, aux_bits := 0 }

/-- Machine for the small suppressed/decelerated runs: 1 step/mm and
accel 4 steps/s² on X. -/
def exM5 : Machine 1 :=
  { zeroMachine 1 with
    max_axis_accel := fun i => if i = X then 4 else 0 }

/-- A 4-step X target at requested speed 2 (micro-ramp suppressed). -/
def exTarget5 : AxisTarget :=
  { position_steps := fun _ => 0,
    delta_steps := fun i => if i = X then 4 else 0,
    defining_axis := X, speed := 2, angle := 180, aux_bits := 0 }

/-- A 4-step X target at requested speed 10 (full trapezoid). -/
def exTarget5w : AxisTarget :=
  { position_steps := fun _ => 0,
    delta_steps := fun i => if i = X then 4 else 0,
    defining_axis := X, speed := 10, angle := 180, aux_bits := 0 }

/-- Machine with eight drivers and X mapped to driver 0. -/
def exM1 : Machine 8 :=
  { zeroMachine 8 with
    axis_to_driver := fun a mo => decide (a = X ∧ mo = 0) }

/-- A 5-step X target. -/
def exTarget1 : AxisTarget :=
  { position_steps := fun _ => 0,
    delta_steps := fun i => if i = X then 5 else 0,
    defining_axis := X, speed := 1, angle := 180, aux_bits := 0 }

/-- Machine with the source's default steps/mm and speed limits
(`kStepsPerMM`, `kMaxFeedrate`; `max_axis_speed = max_feedrate *
steps_per_mm`, so E allows 400 steps/s and A only 1 step/s). -/
def exM2 : Machine 1 :=
  { zeroMachine 1 with
    steps_per_mm := fun i => match i with
      | X => 160 | Y => 160 | Z => 160 | E => 40 | _ => 1,
    max_axis_speed := fun i => match i with
      | X => 32000 | Y => 32000 | Z => 14400 | E => 400 | _ => 1 }

/-- A move of 2.5 mm on E (100 steps) and 99 mm on A (99 steps). -/
def exAxes2 : Axis → ℝ :=
  fun i => match i with | E => 5 / 2 | A => 99 | _ => 0

/-- Machine with unit steps/mm and a 100-steps/s ceiling everywhere. -/
def exM6 : Machine 1 :=
  { zeroMachine 1 with max_axis_speed := fun _ => 100 }

/-- A 3-4-0 millimetre XY move. -/
def exAxes6 : Axis → ℝ :=
  fun i => match i with | X => 3 | Y => 4 | _ => 0

/-- Junction-solver `from` target: +5 X steps at speed 100. -/
def exFrom3 : AxisTarget :=
  { position_steps := fun _ => 0,
    delta_steps := fun i => if i = X then 5 else 0,
    defining_axis := X, speed := 100, angle := 0, aux_bits := 0 }

/-- Junction-solver `to` target: -5 X steps (direction reversal). -/
def exTo3 : AxisTarget :=
  { position_steps := fun _ => 0,
    delta_steps := fun i => if i = X then -5 else 0,
    defining_axis := X, speed := 7, angle := 0, aux_bits := 0 }

/-- Machine requiring homing. -/
def exM7 : Machine 1 := { zeroMachine 1 with require_homing := true }

/-- A freshly constructed state: one boot-time pose in the buffer, never
homed. -/
def exS7 : MachineState :=
  { buffer := [dummyTarget], homing_state := HomingState.NEVER_HOMED,
    aux_bits := 0, current_feedrate := 0, prog_speed_factor := 1,
    origin := fun _ => 0, msgs := [] }

end

/-! ### Helper lemmas -/

theorem mem_axisList (a : Axis) : a ∈ axisList := by
  cases a <;> simp [axisList]

theorem floor_intCast_add_half (n : ℤ) : ⌊(n : ℝ) + 1 / 2⌋ = n := by
  rw [Int.floor_eq_iff]
  refine ⟨by linarith, ?_⟩
  have hc : ((n + 1 : ℤ) : ℝ) = (n : ℝ) + 1 := by push_cast; ring
  linarith [hc.le]

theorem round2int_intCast (n : ℤ) : round2int (n : ℝ) = n := by
  by_cases h : (n : ℝ) < 0
  · rw [round2int, if_pos h]
    have he : -(n : ℝ) + 1 / 2 = ((-n : ℤ) : ℝ) + 1 / 2 := by push_cast; ring
    rw [he, floor_intCast_add_half, neg_neg]
  · rw [round2int, if_neg h, floor_intCast_add_half]

theorem round2int_zero : round2int 0 = 0 := by
  simpa using round2int_intCast 0

theorem truncInt_zero : truncInt 0 = 0 := by
  simp [truncInt]

theorem sqrt_div_sqrt_two (x : ℝ) (hx : 0 ≤ x) :
    Real.sqrt x / Real.sqrt 2 = Real.sqrt (x / 2) :=
  (Real.sqrt_div hx 2).symm

theorem sqrt_thirtytwo_div_sqrt_two : Real.sqrt 32 / Real.sqrt 2 = 4 := by
  rw [sqrt_div_sqrt_two 32 (by norm_num),
    show (32 / 2 : ℝ) = 16 by norm_num,
    show (16 : ℝ) = 4 ^ 2 by norm_num, Real.sqrt_sq (by norm_num)]

theorem five_le_sqrt57_div_sqrt_two : (5 : ℝ) ≤ Real.sqrt 57 / Real.sqrt 2 := by
  rw [sqrt_div_sqrt_two 57 (by norm_num)]
  have h5 : (5 : ℝ) = Real.sqrt 25 := by
    rw [show (25 : ℝ) = 5 ^ 2 by norm_num, Real.sqrt_sq (by norm_num)]
  rw [h5]
  exact Real.sqrt_le_sqrt (by norm_num)

/-- If a later axis reverses direction and the corner angle is not below
the threshold, the per-axis loop of `determine_joining_speed` yields 0. -/
theorem djsLoop_zero_of_reversal (fromT toT : AxisTarget)
    (threshold angle : ℝ) (hθ : ¬ angle < threshold) :
    ∀ (l : List Axis) (b : Bool) (fds : ℝ),
      (∃ k ∈ l, (fromT.delta_steps k < 0 ∧ 0 < toT.delta_steps k) ∨
        (0 < fromT.delta_steps k ∧ toT.delta_steps k < 0)) →
      djsLoop fromT toT threshold angle l b fds = 0 := by
  intro l
  induction l with
  | nil => intro b fds h; simp at h
  | cons ai rest ih =>
    intro b fds h
    have hsplit : (∃ k ∈ rest, (fromT.delta_steps k < 0 ∧ 0 < toT.delta_steps k) ∨
        (0 < fromT.delta_steps k ∧ toT.delta_steps k < 0)) ∨
        ((fromT.delta_steps ai < 0 ∧ 0 < toT.delta_steps ai) ∨
          (0 < fromT.delta_steps ai ∧ toT.delta_steps ai < 0)) := by
      obtain ⟨k, hk, hrev⟩ := h
      rcases List.mem_cons.mp hk with rfl | hk'
      · exact Or.inr hrev
      · exact Or.inl ⟨k, hk', hrev⟩
    simp only [djsLoop]
    -- `split_ifs` resolves the `angle < threshold` test from `hθ` directly
    split_ifs with h1 h2 h3 h4 h5 h6 <;> try rfl
    · -- both deltas of `ai` are zero: the reversal is on a later axis
      obtain ⟨hz1, hz2⟩ := h1
      refine ih _ _ ?_
      rcases hsplit with hr | hrev
      · exact hr
      · exfalso
        rcases hrev with ⟨ha, hb⟩ | ⟨ha, hb⟩ <;> omega
    · -- `ai` passes all checks: the reversal is on a later axis
      refine ih _ _ ?_
      rcases hsplit with hr | hrev
      · exact hr
      · exact absurd hrev h3
    · refine ih _ _ ?_
      rcases hsplit with hr | hrev
      · exact hr
      · exact absurd hrev h3

/-- The loop value stays non-negative when the accumulator starts
non-negative. -/
theorem djsLoop_nonneg (fromT toT : AxisTarget) (threshold angle : ℝ) :
    ∀ (l : List Axis) (b : Bool) (fds : ℝ), 0 ≤ fds →
      0 ≤ djsLoop fromT toT threshold angle l b fds := by
  intro l
  induction l with
  | nil => intro b fds h; simpa [djsLoop] using h
  | cons ai rest ih =>
    intro b fds h
    simp only [djsLoop]
    split_ifs with h1 h2 h3 h4 h5 h6 h7 <;> try norm_num
    · exact ih b fds h
    · exact ih b fds h
    · exact ih false _ (le_of_not_lt h5)
    · exact ih false _ h

/-- `determine_joining_speed` never returns a negative value when the
`from` speed is non-negative. -/
theorem determine_joining_speed_nonneg (fromT toT : AxisTarget)
    (threshold angle : ℝ) (h : 0 ≤ fromT.speed) :
    0 ≤ determine_joining_speed fromT toT threshold angle :=
  djsLoop_nonneg fromT toT threshold angle axisList true fromT.speed h

/-- Below the threshold angle every per-axis check is skipped and the
accumulator passes through unchanged. -/
theorem djsLoop_below_threshold (fromT toT : AxisTarget)
    (threshold angle : ℝ) (h : angle < threshold) :
    ∀ (l : List Axis) (b : Bool) (fds : ℝ),
      djsLoop fromT toT threshold angle l b fds = fds := by
  intro l
  induction l with
  | nil => intro b fds; rfl
  | cons ai rest ih =>
    intro b fds
    simp only [djsLoop, if_pos h]
    exact ih b fds

/-- Below the threshold angle, `determine_joining_speed` returns the full
`from` speed. -/
theorem determine_joining_speed_below_threshold (fromT toT : AxisTarget)
    (threshold angle : ℝ) (h : angle < threshold) :
    determine_joining_speed fromT toT threshold angle = fromT.speed :=
  djsLoop_below_threshold fromT toT threshold angle h axisList true fromT.speed

/-! ### C3 — turnaround behaviour of the junction solver -/

/-- C3 (amended): whenever the corner angle reaches the threshold (so the
per-axis tests are not skipped) and some axis has nonzero deltas of
opposite signs in `from` and `to`, `determine_joining_speed` returns 0. -/
theorem joining_speed_turnaround (fromT toT : AxisTarget)
    (threshold angle : ℝ) (k : Axis) (hθ : threshold ≤ angle)
    (hrev : (fromT.delta_steps k < 0 ∧ 0 < toT.delta_steps k) ∨
      (0 < fromT.delta_steps k ∧ toT.delta_steps k < 0)) :
    determine_joining_speed fromT toT threshold angle = 0 :=
  djsLoop_zero_of_reversal fromT toT threshold angle (not_lt.mpr hθ)
    axisList true fromT.speed ⟨k, mem_axisList k, hrev⟩

/-- C3 witness: an X reversal from +5 to -5 with corner angle 180° ≥ threshold 10°
is assigned junction speed 0. -/
theorem joining_speed_turnaround_witness :
    (10 : ℝ) ≤ 180 ∧
    (0 < exFrom3.delta_steps X ∧ exTo3.delta_steps X < 0) ∧
    determine_joining_speed exFrom3 exTo3 10 180 = 0 :=
  ⟨by norm_num,
   ⟨by norm_num [exFrom3], by norm_num [exTo3]⟩,
   joining_speed_turnaround exFrom3 exTo3 10 180 X (by norm_num)
     (Or.inr ⟨by norm_num [exFrom3], by norm_num [exTo3]⟩)⟩

/-- C3 counterexample: with corner angle 1° below the 10° threshold every
per-axis test is skipped, so despite the X reversal from +5 to -5 the solver
returns the full `from` speed 100, not 0. -/
theorem joining_speed_turnaround_cex :
    (0 < exFrom3.delta_steps X ∧ exTo3.delta_steps X < 0) ∧
    determine_joining_speed exFrom3 exTo3 10 1 = 100 ∧ (100 : ℝ) ≠ 0 := by
  refine ⟨⟨by norm_num [exFrom3], by norm_num [exTo3]⟩, ?_, by norm_num⟩
  rw [determine_joining_speed_below_threshold exFrom3 exTo3 10 1 (by norm_num)]
  norm_num [exFrom3]

/-! ### Motor fan-out lemmas -/

theorem foldl_assign_skip (m : Machine M) (mo : Fin M) (f : Axis → ℤ) :
    ∀ (l : List Axis) (cmd : MotorMovement M),
      (∀ j ∈ l, m.axis_to_driver j mo = false) →
      (l.foldl (fun c i => assign_steps_to_motors m c i (f i)) cmd).steps mo =
        cmd.steps mo := by
  intro l
  induction l with
  | nil => intro cmd _; rfl
  | cons a t ih =>
    intro cmd h
    simp only [List.foldl_cons]
    rw [ih _ (fun j hj => h j (List.mem_cons_of_mem a hj))]
    have ha := h a (List.mem_cons_self a t)
    simp [assign_steps_to_motors, ha]

theorem foldl_assign_mem (m : Machine M) (mo : Fin M) (k : Axis) (f : Axis → ℤ)
    (hmap : m.axis_to_driver k mo = true)
    (huniq : ∀ j, j ≠ k → m.axis_to_driver j mo = false) :
    ∀ (l : List Axis) (cmd : MotorMovement M), k ∈ l →
      (l.foldl (fun c i => assign_steps_to_motors m c i (f i)) cmd).steps mo =
        m.axis_flip k * m.driver_flip mo * f k := by
  intro l
  induction l with
  | nil => intro cmd h; simp at h
  | cons a t ih =>
    intro cmd hk
    by_cases hmem : k ∈ t
    · simp only [List.foldl_cons]
      exact ih _ hmem
    · have hak : a = k := by
        rcases List.mem_cons.mp hk with h | h
        · exact h.symm
        · exact absurd h hmem
      subst hak
      simp only [List.foldl_cons]
      rw [foldl_assign_skip m mo f t _
        (fun j hj => huniq j (fun heq => hmem (heq ▸ hj)))]
      simp [assign_steps_to_motors, hmap]

/-- A full `for`-loop of `assign_steps_to_motors` writes
`axis_flip[k] * driver_flip[mo] * f k` to a driver `mo` that only axis `k`
maps to. -/
theorem assignAllAxes_steps (m : Machine M) (base : MotorMovement M)
    (f : Axis → ℤ) (k : Axis) (mo : Fin M)
    (hmap : m.axis_to_driver k mo = true)
    (huniq : ∀ j, j ≠ k → m.axis_to_driver j mo = false) :
    (assignAllAxes m base f).steps mo =
      m.axis_flip k * m.driver_flip mo * f k :=
  foldl_assign_mem m mo k f hmap huniq axisList base (mem_axisList k)

theorem mmsAccelCmd_steps_of_not (m : Machine M)
    (last target upcoming : AxisTarget) (mo : Fin M)
    (h : ¬ mmsHasAccel m last target upcoming) :
    (mmsAccelCmd m last target upcoming).steps mo = 0 := by
  rw [mmsAccelCmd, if_neg h]
  rfl

theorem mmsDecelCmd_steps_of_not (m : Machine M)
    (last target upcoming : AxisTarget) (mo : Fin M)
    (h : ¬ mmsHasDecel m last target upcoming) :
    (mmsDecelCmd m last target upcoming).steps mo = 0 := by
  rw [mmsDecelCmd, if_neg h]
  rfl

/-- The cruise command's per-driver steps are the total assignment minus the
accel and decel assignments (the two `substract_steps` calls). -/
theorem mmsMoveCmd_steps_eq (m : Machine M)
    (last target upcoming : AxisTarget) (mo : Fin M) :
    (mmsMoveCmd m last target upcoming).steps mo =
      (mmsMoveCmdFull m target).steps mo -
      (mmsAccelCmd m last target upcoming).steps mo -
      (mmsDecelCmd m last target upcoming).steps mo := rfl

/-- A `false` return of the second `substract_steps` means every driver's
cruise step count is zero. -/
theorem mmsMoveCmd_steps_of_not (m : Machine M)
    (last target upcoming : AxisTarget) (mo : Fin M)
    (h : mmsHasMove m last target upcoming = false) :
    (mmsMoveCmd m last target upcoming).steps mo = 0 := by
  have h2 : ∀ x : Fin M, (mmsMoveCmdFull m target).steps x -
      (mmsAccelCmd m last target upcoming).steps x -
      (mmsDecelCmd m last target upcoming).steps x = 0 := by
    simpa [mmsHasMove, substract_steps] using h
  rw [mmsMoveCmd_steps_eq]
  exact h2 mo

/-! ### C1 — step conservation through the segmenter -/

/-- C1: for a target with nonzero defining-axis delta, and a driver `mo`
that only axis `k` maps to, the per-driver step counts of the emitted
accel/cruise/decel commands sum to
`axis_flip[k] * driver_flip[mo] * delta_steps[k]` exactly: the cruise
segment carries the remainder, so rounding of the accel/decel fractions
loses nothing.  (With trivial flips this is the before-fan-out statement
that the three segments sum to `delta_steps[k]`.) -/
theorem step_conservation (m : Machine M) (last target upcoming : AxisTarget)
    (k : Axis) (mo : Fin M)
    (hS : ¬ target.delta_steps target.defining_axis = 0)
    (hmap : m.axis_to_driver k mo = true)
    (huniq : ∀ j, j ≠ k → m.axis_to_driver j mo = false) :
    ((move_machine_steps m last target upcoming).emitted.map
      (fun c => c.steps mo)).sum =
      m.axis_flip k * m.driver_flip mo * target.delta_steps k := by
  have hemit : (move_machine_steps m last target upcoming).emitted =
      mmsEmitted m last target upcoming := by
    rw [move_machine_steps, if_neg hS]
  rw [hemit]
  have hfull : (mmsMoveCmdFull m target).steps mo =
      m.axis_flip k * m.driver_flip mo * target.delta_steps k := by
    rw [mmsMoveCmdFull]
    exact assignAllAxes_steps m _ target.delta_steps k mo hmap huniq
  rw [← hfull]
  have hmove := mmsMoveCmd_steps_eq m last target upcoming mo
  rw [mmsEmitted]
  by_cases h1 : mmsHasAccel m last target upcoming
  · by_cases h2 : mmsHasMove m last target upcoming = true
    · by_cases h3 : mmsHasDecel m last target upcoming
      · simp only [if_pos h1, if_pos h2, if_pos h3]
        simp only [List.cons_append, List.nil_append, List.map,
          List.sum_cons, List.sum_nil]
        omega
      · have hd0 := mmsDecelCmd_steps_of_not m last target upcoming mo h3
        simp only [if_pos h1, if_pos h2, if_neg h3]
        simp only [List.cons_append, List.nil_append, List.append_nil,
          List.map, List.sum_cons, List.sum_nil]
        omega
    · by_cases h3 : mmsHasDecel m last target upcoming
      · have hm0 := mmsMoveCmd_steps_of_not m last target upcoming mo
          (by simpa using h2)
        simp only [if_pos h1, if_neg h2, if_pos h3]
        simp only [List.cons_append, List.nil_append, List.map,
          List.sum_cons, List.sum_nil]
        omega
      · have hm0 := mmsMoveCmd_steps_of_not m last target upcoming mo
          (by simpa using h2)
        have hd0 := mmsDecelCmd_steps_of_not m last target upcoming mo h3
        simp only [if_pos h1, if_neg h2, if_neg h3]
        simp only [List.cons_append, List.nil_append, List.append_nil,
          List.map, List.sum_cons, List.sum_nil]
        omega
  · have ha0 := mmsAccelCmd_steps_of_not m last target upcoming mo h1
    by_cases h2 : mmsHasMove m last target upcoming = true
    · by_cases h3 : mmsHasDecel m last target upcoming
      · simp only [if_neg h1, if_pos h2, if_pos h3]
        simp only [List.cons_append, List.nil_append, List.map,
          List.sum_cons, List.sum_nil]
        omega
      · have hd0 := mmsDecelCmd_steps_of_not m last target upcoming mo h3
        simp only [if_neg h1, if_pos h2, if_neg h3]
        simp only [List.cons_append, List.nil_append, List.append_nil,
          List.map, List.sum_cons, List.sum_nil]
        omega
    · by_cases h3 : mmsHasDecel m last target upcoming
      · have hm0 := mmsMoveCmd_steps_of_not m last target upcoming mo
          (by simpa using h2)
        simp only [if_neg h1, if_neg h2, if_pos h3]
        simp only [List.cons_append, List.nil_append, List.map,
          List.sum_cons, List.sum_nil]
        omega
      · have hm0 := mmsMoveCmd_steps_of_not m last target upcoming mo
          (by simpa using h2)
        have hd0 := mmsDecelCmd_steps_of_not m last target upcoming mo h3
        simp only [if_neg h1, if_neg h2, if_neg h3]
        simp only [List.append_nil, List.nil_append, List.map, List.sum_nil]
        omega

/-- C1 witness: conservation on a 5-step X move with X mapped to driver 0
of eight. -/
theorem step_conservation_witness :
    (¬ exTarget1.delta_steps exTarget1.defining_axis = 0) ∧
    exM1.axis_to_driver X (0 : Fin 8) = true ∧
    (∀ j, j ≠ X → exM1.axis_to_driver j (0 : Fin 8) = false) ∧
    ((move_machine_steps exM1 dummyTarget exTarget1 dummyTarget).emitted.map
      (fun c => c.steps (0 : Fin 8))).sum =
      exM1.axis_flip X * exM1.driver_flip (0 : Fin 8) *
        exTarget1.delta_steps X :=
  ⟨by decide, by decide, by decide,
   step_conservation exM1 dummyTarget exTarget1 dummyTarget X 0
     (by decide) (by decide) (by decide)⟩

/-! ### Single-step evaluation lemmas for the junction-solver loop -/

/-- One loop step over an axis whose deltas are both zero is a skip. -/
theorem djsLoop_skip_zero (fromT toT : AxisTarget) (threshold angle : ℝ)
    (hang : ¬ angle < threshold) (ai : Axis) (rest : List Axis) (b : Bool)
    (fds : ℝ) (h0 : fromT.delta_steps ai = 0) (h0t : toT.delta_steps ai = 0) :
    djsLoop fromT toT threshold angle (ai :: rest) b fds =
      djsLoop fromT toT threshold angle rest b fds := by
  simp only [djsLoop]
  rw [if_neg hang, if_pos ⟨h0, h0t⟩]

/-- One loop step over an axis where exactly one delta is zero returns 0. -/
theorem djsLoop_step_zero_of_one (fromT toT : AxisTarget)
    (threshold angle : ℝ) (hang : ¬ angle < threshold) (ai : Axis)
    (rest : List Axis) (b : Bool) (fds : ℝ)
    (h : fromT.delta_steps ai = 0 ∨ toT.delta_steps ai = 0)
    (hnboth : ¬ (fromT.delta_steps ai = 0 ∧ toT.delta_steps ai = 0)) :
    djsLoop fromT toT threshold angle (ai :: rest) b fds = 0 := by
  simp only [djsLoop]
  rw [if_neg hang, if_neg hnboth, if_pos h]

/-- One loop step over an axis that passes all checks updates the
accumulator and clears `is_first`. -/
theorem djsLoop_step_update (fromT toT : AxisTarget) (threshold angle : ℝ)
    (hang : ¬ angle < threshold) (ai : Axis) (rest : List Axis) (b : Bool)
    (fds : ℝ)
    (hnboth : ¬ (fromT.delta_steps ai = 0 ∧ toT.delta_steps ai = 0))
    (hnone : ¬ (fromT.delta_steps ai = 0 ∨ toT.delta_steps ai = 0))
    (hrev : ¬ ((fromT.delta_steps ai < 0 ∧ 0 < toT.delta_steps ai) ∨
      (0 < fromT.delta_steps ai ∧ toT.delta_steps ai < 0)))
    (hg : ¬ get_speed_for_axis toT ai *
      ((fromT.delta_steps fromT.defining_axis : ℝ) /
        (fromT.delta_steps ai : ℝ)) < 0)
    (hcond : b = true ∨ within_acceptable_range
      (get_speed_for_axis toT ai *
        ((fromT.delta_steps fromT.defining_axis : ℝ) /
          (fromT.delta_steps ai : ℝ))) fds 1e-5) :
    djsLoop fromT toT threshold angle (ai :: rest) b fds =
      djsLoop fromT toT threshold angle rest false
        (if get_speed_for_axis toT ai *
            ((fromT.delta_steps fromT.defining_axis : ℝ) /
              (fromT.delta_steps ai : ℝ)) < fds then
          get_speed_for_axis toT ai *
            ((fromT.delta_steps fromT.defining_axis : ℝ) /
              (fromT.delta_steps ai : ℝ))
        else fds) := by
  simp only [djsLoop]
  rw [if_neg hang, if_neg hnboth, if_neg hnone, if_neg hrev, if_neg hg,
    if_pos hcond]

/-! ### Sign facts about the segmenter's fractions -/

theorem steps_for_speed_change_fst_nonneg (a v0 v1 : ℝ) (max_steps : ℤ)
    (ha : 0 < a) (hv0 : 0 ≤ v0) (hv01 : v0 ≤ v1) (hmax : 0 ≤ max_steps) :
    0 ≤ (steps_for_speed_change a v0 v1 max_steps).1 := by
  rw [steps_for_speed_change]
  split_ifs
  · have ht : 0 ≤ (v1 - v0) / a := div_nonneg (by linarith) ha.le
    have h1 : 0 ≤ a / 2 * ((v1 - v0) / a) * ((v1 - v0) / a) :=
      mul_nonneg (mul_nonneg (by linarith) ht) ht
    have h2 : 0 ≤ v0 * ((v1 - v0) / a) := mul_nonneg hv0 ht
    simpa using add_nonneg h1 h2
  · simpa using (Int.cast_nonneg.mpr hmax : (0 : ℝ) ≤ (max_steps : ℝ))

theorem steps_for_speed_change_fst_nonneg_decel (a v2 next : ℝ)
    (max_steps : ℤ) (ha : 0 < a) (hn : 0 ≤ next) (hlt : next ≤ v2)
    (hmax : 0 ≤ max_steps) :
    0 ≤ (steps_for_speed_change (-a) v2 next max_steps).1 := by
  rw [steps_for_speed_change]
  split_ifs
  · have hane : a ≠ 0 := ne_of_gt ha
    have htr : (next - v2) / -a = (v2 - next) / a := by
      rw [div_neg, ← neg_div, neg_sub]
    rw [htr]
    have ht0 : 0 ≤ (v2 - next) / a := div_nonneg (by linarith) ha.le
    have hat : a * ((v2 - next) / a) = v2 - next := by
      field_simp
    nlinarith [mul_nonneg ht0 (by linarith : (0 : ℝ) ≤ v2 + next), hat, ht0]
  · simpa using (Int.cast_nonneg.mpr hmax : (0 : ℝ) ≤ (max_steps : ℝ))

theorem mmsAbsSteps_nonneg (target : AxisTarget) : 0 ≤ mmsAbsSteps target :=
  abs_nonneg _

theorem mmsLastSpeed_nonneg (last target : AxisTarget) :
    0 ≤ mmsLastSpeed last target := abs_nonneg _

theorem mmsNextSpeed_nonneg (m : Machine M) (last target upcoming : AxisTarget)
    (hsp : 0 ≤ target.speed) : 0 ≤ mmsNextSpeed m last target upcoming :=
  determine_joining_speed_nonneg target upcoming _ _ hsp

theorem mmsPeakSpeed_nonneg (m : Machine M) (last target upcoming : AxisTarget) :
    0 ≤ mmsPeakSpeed m last target upcoming :=
  div_nonneg (Real.sqrt_nonneg _) (Real.sqrt_nonneg _)

theorem mmsClampedSpeed_nonneg (m : Machine M)
    (last target upcoming : AxisTarget) (hsp : 0 ≤ target.speed) :
    0 ≤ mmsClampedSpeed m last target upcoming := by
  rw [mmsClampedSpeed]
  split_ifs
  · exact mmsPeakSpeed_nonneg m last target upcoming
  · exact hsp

theorem mmsAccelFraction_nonneg (m : Machine M)
    (last target upcoming : AxisTarget)
    (ha : 0 < m.max_axis_accel target.defining_axis) (hsp : 0 ≤ target.speed) :
    0 ≤ mmsAccelFraction m last target upcoming := by
  rw [mmsAccelFraction, mmsAccelPair]
  split_ifs with h
  · refine div_nonneg ?_ (by exact_mod_cast mmsAbsSteps_nonneg target)
    exact steps_for_speed_change_fst_nonneg _ _ _ _ ha
      (mmsLastSpeed_nonneg last target) h.le (mmsAbsSteps_nonneg target)
  · simp

theorem mmsSpeedAfterAccel_nonneg (m : Machine M)
    (last target upcoming : AxisTarget)
    (ha : 0 < m.max_axis_accel target.defining_axis) (hsp : 0 ≤ target.speed) :
    0 ≤ mmsSpeedAfterAccel m last target upcoming := by
  rw [mmsSpeedAfterAccel, mmsAccelPair]
  split_ifs with h
  · rw [steps_for_speed_change]
    simp only
    split_ifs
    · exact mmsClampedSpeed_nonneg m last target upcoming hsp
    · exact Real.sqrt_nonneg _
  · exact mmsClampedSpeed_nonneg m last target upcoming hsp

theorem mmsDecelFraction_nonneg (m : Machine M)
    (last target upcoming : AxisTarget)
    (ha : 0 < m.max_axis_accel target.defining_axis) (hsp : 0 ≤ target.speed) :
    0 ≤ mmsDecelFraction m last target upcoming := by
  rw [mmsDecelFraction]
  split_ifs with h
  · refine div_nonneg ?_ (by exact_mod_cast mmsAbsSteps_nonneg target)
    exact steps_for_speed_change_fst_nonneg_decel _ _ _ _ ha
      (mmsNextSpeed_nonneg m last target upcoming hsp) h.le
      (mmsAbsSteps_nonneg target)
  · exact le_refl 0

/-! ### C4 — micro-segment suppression -/

/-- C4 (amended): both ramps are suppressed (no accel and no decel command
is emitted) exactly when the source's truncated ramp-step count
`accel_decel_steps = (int)((f_acc + f_dec) * S)` satisfies
`accel_decel_steps / steps_per_mm ≤ 2` and `accel_decel_steps ≤ 16` —
the comparison is made on the integer-truncated count, not on the exact
`(f_acc + f_dec) * S`; and in that case `target.speed` keeps its value
from the accel computation (it is not overwritten with the junction
speed). -/
theorem micro_segment_suppression (m : Machine M)
    (last target upcoming : AxisTarget)
    (hS : ¬ target.delta_steps target.defining_axis = 0)
    (ha : 0 < m.max_axis_accel target.defining_axis)
    (hsp : 0 ≤ target.speed) :
    ((¬ mmsHasAccel m last target upcoming ∧
        ¬ mmsHasDecel m last target upcoming) ↔
      (mmsAccelDecelMM m last target upcoming ≤ 2 ∧
        mmsAccelDecelSteps m last target upcoming ≤ 16)) ∧
    (mmsAccelDecelMM m last target upcoming ≤ 2 ∧
        mmsAccelDecelSteps m last target upcoming ≤ 16 →
      (move_machine_steps m last target upcoming).target.speed =
        mmsSpeedAfterAccel m last target upcoming) := by
  have hSpos : (0 : ℝ) < (mmsAbsSteps target : ℝ) := by
    have : 0 < mmsAbsSteps target := abs_pos.mpr hS
    exact_mod_cast this
  have haf := mmsAccelFraction_nonneg m last target upcoming ha hsp
  have hdf := mmsDecelFraction_nonneg m last target upcoming ha hsp
  have hnotdo : (¬ mmsDoAccel m last target upcoming) ↔
      (mmsAccelDecelMM m last target upcoming ≤ 2 ∧
        mmsAccelDecelSteps m last target upcoming ≤ 16) := by
    rw [mmsDoAccel, not_or, not_lt, not_lt]
  constructor
  · rw [← hnotdo]
    constructor
    · rintro ⟨hna, hnd⟩ hdo
      have h1 : ¬ 0 < mmsAccelFraction m last target upcoming *
          (mmsAbsSteps target : ℝ) := fun hp => hna ⟨hdo, hp⟩
      have h2 : ¬ 0 < mmsDecelFraction m last target upcoming *
          (mmsAbsSteps target : ℝ) := fun hp => hnd ⟨hdo, hp⟩
      have haf0 : mmsAccelFraction m last target upcoming = 0 := by
        rcases lt_or_eq_of_le haf with h | h
        · exact absurd (mul_pos h hSpos) h1
        · exact h.symm
      have hdf0 : mmsDecelFraction m last target upcoming = 0 := by
        rcases lt_or_eq_of_le hdf with h | h
        · exact absurd (mul_pos h hSpos) h2
        · exact h.symm
      have hsteps0 : mmsAccelDecelSteps m last target upcoming = 0 := by
        rw [mmsAccelDecelSteps, haf0, hdf0]
        norm_num [truncInt_zero]
      have hmm0 : mmsAccelDecelMM m last target upcoming = 0 := by
        rw [mmsAccelDecelMM, hsteps0]
        simp
      rcases hdo with h | h
      · rw [hmm0] at h; norm_num at h
      · rw [hsteps0] at h; norm_num at h
    · intro hnot
      exact ⟨fun h => hnot h.1, fun h => hnot h.1⟩
  · intro hcond
    have hnd : ¬ mmsHasDecel m last target upcoming :=
      fun h => (hnotdo.mpr hcond) h.1
    rw [move_machine_steps, if_neg hS]
    simp only
    rw [mmsFinalSpeed, if_neg hnd]

/-- C4 witness: the suppression characterisation applied to a concrete
20-step X move. -/
theorem micro_segment_suppression_witness :
    (¬ exTarget4.delta_steps exTarget4.defining_axis = 0) ∧
    (0 < exM4.max_axis_accel exTarget4.defining_axis) ∧
    (0 ≤ exTarget4.speed) ∧
    (((¬ mmsHasAccel exM4 exLast4 exTarget4 exUp4 ∧
        ¬ mmsHasDecel exM4 exLast4 exTarget4 exUp4) ↔
      (mmsAccelDecelMM exM4 exLast4 exTarget4 exUp4 ≤ 2 ∧
        mmsAccelDecelSteps exM4 exLast4 exTarget4 exUp4 ≤ 16)) ∧
    (mmsAccelDecelMM exM4 exLast4 exTarget4 exUp4 ≤ 2 ∧
        mmsAccelDecelSteps exM4 exLast4 exTarget4 exUp4 ≤ 16 →
      (move_machine_steps exM4 exLast4 exTarget4 exUp4).target.speed =
        mmsSpeedAfterAccel exM4 exLast4 exTarget4 exUp4)) :=
  ⟨by norm_num [exTarget4], by norm_num [exM4, zeroMachine, exTarget4],
   by norm_num [exTarget4],
   micro_segment_suppression exM4 exLast4 exTarget4 exUp4
     (by norm_num [exTarget4]) (by norm_num [exM4, zeroMachine, exTarget4])
     (by norm_num [exTarget4])⟩

/-- C4 counterexample: on a 20-step X move with entry speed 4, cruise
speed 5 and exit speed 1 the exact ramp length is
`(f_acc + f_dec) * S = 16.5` steps, which violates the claim's
`s_ramp ≤ 16` bound, yet the code suppresses both ramps because the
C `(int)` cast truncates 16.5 to 16 before the comparison. -/
theorem micro_segment_suppression_cex :
    (mmsAccelFraction exM4 exLast4 exTarget4 exUp4 +
        mmsDecelFraction exM4 exLast4 exTarget4 exUp4) *
      (mmsAbsSteps exTarget4 : ℝ) = 33 / 2 ∧
    (33 / 2 : ℝ) / exM4.steps_per_mm exTarget4.defining_axis ≤ 2 ∧
    ¬ ((33 / 2 : ℝ) ≤ 16) ∧
    ¬ mmsHasAccel exM4 exLast4 exTarget4 exUp4 ∧
    ¬ mmsHasDecel exM4 exLast4 exTarget4 exUp4 := by
  have hdefin : exTarget4.defining_axis = X := rfl
  have habs : mmsAbsSteps exTarget4 = 20 := by
    rw [mmsAbsSteps, hdefin]
    norm_num [exTarget4]
  have haccel : acceleration_for_move exM4 exTarget4 = 1 := by
    rw [acceleration_for_move, hdefin]
    norm_num [exM4, zeroMachine]
  have hlastg : get_speed_for_axis exLast4 X = 4 := by
    rw [get_speed_for_axis, get_speed_factor_for_axis]
    norm_num [exLast4]
  have hlast : mmsLastSpeed exLast4 exTarget4 = 4 := by
    rw [mmsLastSpeed, hdefin, hlastg]
    norm_num
  have hang : |exLast4.angle - exTarget4.angle| = 180 := by
    rw [show exLast4.angle - exTarget4.angle = -(180 : ℝ) by
      norm_num [exLast4, exTarget4]]
    rw [abs_neg, abs_of_nonneg (by norm_num : (0 : ℝ) ≤ 180)]
  have hth : exM4.threshold_angle = 10 := by
    norm_num [exM4, zeroMachine]
  have hgval : get_speed_for_axis exUp4 X *
      ((exTarget4.delta_steps exTarget4.defining_axis : ℝ) /
        (exTarget4.delta_steps X : ℝ)) = 1 := by
    rw [get_speed_for_axis, get_speed_factor_for_axis, hdefin]
    norm_num [exUp4, exTarget4]
  have hnang : ¬ (180 : ℝ) < 10 := by norm_num
  have hnext : mmsNextSpeed exM4 exLast4 exTarget4 exUp4 = 1 := by
    rw [mmsNextSpeed, hang, hth, determine_joining_speed]
    rw [show axisList = X :: [Y, Z, E, A, B, C, U, V, W] from rfl]
    rw [djsLoop_step_update exTarget4 exUp4 10 180 hnang X _ true
      exTarget4.speed
      (by norm_num [exTarget4, exUp4]) (by norm_num [exTarget4, exUp4])
      (by norm_num [exTarget4, exUp4]) (by rw [hgval]; norm_num)
      (Or.inl rfl)]
    rw [hgval, show exTarget4.speed = (5 : ℝ) from rfl,
      if_pos (by norm_num : (1 : ℝ) < 5)]
    rw [djsLoop_skip_zero exTarget4 exUp4 10 180 hnang Y _ false 1
      (by decide) (by decide)]
    rw [djsLoop_skip_zero exTarget4 exUp4 10 180 hnang Z _ false 1
      (by decide) (by decide)]
    rw [djsLoop_skip_zero exTarget4 exUp4 10 180 hnang E _ false 1
      (by decide) (by decide)]
    rw [djsLoop_skip_zero exTarget4 exUp4 10 180 hnang A _ false 1
      (by decide) (by decide)]
    rw [djsLoop_skip_zero exTarget4 exUp4 10 180 hnang B _ false 1
      (by decide) (by decide)]
    rw [djsLoop_skip_zero exTarget4 exUp4 10 180 hnang C _ false 1
      (by decide) (by decide)]
    rw [djsLoop_skip_zero exTarget4 exUp4 10 180 hnang U _ false 1
      (by decide) (by decide)]
    rw [djsLoop_skip_zero exTarget4 exUp4 10 180 hnang V _ false 1
      (by decide) (by decide)]
    rw [djsLoop_skip_zero exTarget4 exUp4 10 180 hnang W _ false 1
      (by decide) (by decide)]
    rfl
  have hpeak : mmsPeakSpeed exM4 exLast4 exTarget4 exUp4 =
      Real.sqrt 57 / Real.sqrt 2 := by
    rw [mmsPeakSpeed, hlast, hnext, habs, haccel, get_peak_speed]
    norm_num
  have hclamp : mmsClampedSpeed exM4 exLast4 exTarget4 exUp4 = 5 := by
    rw [mmsClampedSpeed, hpeak, show exTarget4.speed = (5 : ℝ) from rfl,
      if_neg (not_lt.mpr five_le_sqrt57_div_sqrt_two)]
  have haccelpair : mmsAccelPair exM4 exLast4 exTarget4 exUp4 = (9 / 40, 5) := by
    rw [mmsAccelPair, hlast, hclamp, haccel, habs]
    rw [if_pos (by norm_num : (4 : ℝ) < 5)]
    rw [steps_for_speed_change]
    rw [if_pos (by push_cast; norm_num : (1 : ℝ) / 2 * ((5 - 4) / 1) *
      ((5 - 4) / 1) + 4 * ((5 - 4) / 1) ≤ ((20 : ℤ) : ℝ))]
    simp only [Prod.mk.injEq]
    constructor
    · push_cast
      norm_num
    · trivial
  have haf : mmsAccelFraction exM4 exLast4 exTarget4 exUp4 = 9 / 40 := by
    rw [mmsAccelFraction, haccelpair]
  have hv2 : mmsSpeedAfterAccel exM4 exLast4 exTarget4 exUp4 = 5 := by
    rw [mmsSpeedAfterAccel, haccelpair]
  have hdf : mmsDecelFraction exM4 exLast4 exTarget4 exUp4 = 3 / 5 := by
    rw [mmsDecelFraction, hnext, hv2, haccel, habs]
    rw [if_pos (by norm_num : (1 : ℝ) < 5)]
    rw [steps_for_speed_change]
    rw [if_pos (by push_cast; norm_num : -(1 : ℝ) / 2 * ((1 - 5) / -1) *
      ((1 - 5) / -1) + 5 * ((1 - 5) / -1) ≤ ((20 : ℤ) : ℝ))]
    push_cast
    norm_num
  have hsum : (mmsAccelFraction exM4 exLast4 exTarget4 exUp4 +
      mmsDecelFraction exM4 exLast4 exTarget4 exUp4) *
      (mmsAbsSteps exTarget4 : ℝ) = 33 / 2 := by
    rw [haf, hdf, habs]
    push_cast
    norm_num
  have hsteps : mmsAccelDecelSteps exM4 exLast4 exTarget4 exUp4 = 16 := by
    rw [mmsAccelDecelSteps, hsum, truncInt,
      if_neg (by norm_num : ¬ (33 / 2 : ℝ) < 0)]
    rw [Int.floor_eq_iff]
    constructor
    · push_cast
      norm_num
    · push_cast
      norm_num
  have hmmv : mmsAccelDecelMM exM4 exLast4 exTarget4 exUp4 = 1 / 10 := by
    rw [mmsAccelDecelMM, hsteps, hdefin]
    norm_num [exM4, zeroMachine]
  have hdo : ¬ mmsDoAccel exM4 exLast4 exTarget4 exUp4 := by
    rw [mmsDoAccel, hmmv, hsteps]
    norm_num
  refine ⟨hsum, ?_, by norm_num, fun h => hdo h.1, fun h => hdo h.1⟩
  rw [hdefin]
  norm_num [exM4, zeroMachine]

/-! ### C5 — exit-speed update -/

/-- C5 (amended): `target.speed` is overwritten with the junction speed
`v_out` computed by `determine_joining_speed` exactly by the
decel-emitting block; so whenever a decel segment is emitted, the target
leaves `move_machine_steps` carrying `v_out`. -/
theorem exit_speed_update (m : Machine M) (last target upcoming : AxisTarget)
    (hS : ¬ target.delta_steps target.defining_axis = 0)
    (hd : mmsHasDecel m last target upcoming) :
    (move_machine_steps m last target upcoming).target.speed =
      mmsNextSpeed m last target upcoming := by
  rw [move_machine_steps, if_neg hS]
  simp only
  rw [mmsFinalSpeed, if_pos hd]

/-- C5 witness: a 4-step X move at requested speed 10 against a halting
upcoming target emits a decel and leaves `target.speed = v_out`. -/
theorem exit_speed_update_witness :
    (¬ exTarget5w.delta_steps exTarget5w.defining_axis = 0) ∧
    mmsHasDecel exM5 dummyTarget exTarget5w dummyTarget ∧
    (move_machine_steps exM5 dummyTarget exTarget5w dummyTarget).target.speed =
      mmsNextSpeed exM5 dummyTarget exTarget5w dummyTarget := by
  have hlast : mmsLastSpeed dummyTarget exTarget5w = 0 := by
    rw [mmsLastSpeed, get_speed_for_axis, get_speed_factor_for_axis]
    norm_num [dummyTarget]
  have hnang : ¬ (180 : ℝ) < 10 := by norm_num
  have hang : |dummyTarget.angle - exTarget5w.angle| = 180 := by
    rw [show dummyTarget.angle - exTarget5w.angle = -(180 : ℝ) by
      norm_num [dummyTarget, exTarget5w]]
    rw [abs_neg, abs_of_nonneg (by norm_num : (0 : ℝ) ≤ 180)]
  have hth : exM5.threshold_angle = 10 := by norm_num [exM5, zeroMachine]
  have hnext : mmsNextSpeed exM5 dummyTarget exTarget5w dummyTarget = 0 := by
    rw [mmsNextSpeed, hang, hth, determine_joining_speed]
    rw [show axisList = X :: [Y, Z, E, A, B, C, U, V, W] from rfl]
    rw [djsLoop_step_zero_of_one exTarget5w dummyTarget 10 180 hnang X _
      true exTarget5w.speed (Or.inr (by decide)) (by decide)]
  have habs : mmsAbsSteps exTarget5w = 4 := by decide
  have haccelv : acceleration_for_move exM5 exTarget5w = 4 := by
    rw [acceleration_for_move, show exTarget5w.defining_axis = X from rfl]
    norm_num [exM5, zeroMachine]
  have hpeak : mmsPeakSpeed exM5 dummyTarget exTarget5w dummyTarget = 4 := by
    rw [mmsPeakSpeed, hlast, hnext, habs, haccelv, get_peak_speed]
    rw [show (0 : ℝ) * 0 + 0 * 0 + 2 * 4 * ((4 : ℤ) : ℝ) = 32 by
      push_cast; norm_num]
    exact sqrt_thirtytwo_div_sqrt_two
  have hclamp : mmsClampedSpeed exM5 dummyTarget exTarget5w dummyTarget = 4 := by
    rw [mmsClampedSpeed, hpeak, show exTarget5w.speed = (10 : ℝ) from rfl,
      if_pos (by norm_num : (4 : ℝ) < 10)]
  have hap : mmsAccelPair exM5 dummyTarget exTarget5w dummyTarget =
      (1 / 2, 4) := by
    rw [mmsAccelPair, hlast, hclamp, haccelv, habs]
    rw [if_pos (by norm_num : (0 : ℝ) < 4)]
    rw [steps_for_speed_change]
    rw [if_pos (by push_cast; norm_num : (4 : ℝ) / 2 * ((4 - 0) / 4) *
      ((4 - 0) / 4) + 0 * ((4 - 0) / 4) ≤ ((4 : ℤ) : ℝ))]
    simp only [Prod.mk.injEq]
    constructor
    · push_cast
      norm_num
    · trivial
  have hv2 : mmsSpeedAfterAccel exM5 dummyTarget exTarget5w dummyTarget = 4 := by
    rw [mmsSpeedAfterAccel, hap]
  have hdf : mmsDecelFraction exM5 dummyTarget exTarget5w dummyTarget =
      1 / 2 := by
    rw [mmsDecelFraction, hnext, hv2, haccelv, habs]
    rw [if_pos (by norm_num : (0 : ℝ) < 4)]
    rw [steps_for_speed_change]
    rw [if_pos (by push_cast; norm_num : -(4 : ℝ) / 2 * ((0 - 4) / -4) *
      ((0 - 4) / -4) + 4 * ((0 - 4) / -4) ≤ ((4 : ℤ) : ℝ))]
    push_cast
    norm_num
  have haf : mmsAccelFraction exM5 dummyTarget exTarget5w dummyTarget =
      1 / 2 := by
    rw [mmsAccelFraction, hap]
  have hsteps : mmsAccelDecelSteps exM5 dummyTarget exTarget5w dummyTarget =
      4 := by
    rw [mmsAccelDecelSteps, haf, hdf, habs]
    rw [show ((1 / 2 : ℝ) + 1 / 2) * ((4 : ℤ) : ℝ) = 4 by push_cast; norm_num]
    rw [truncInt, if_neg (by norm_num : ¬ (4 : ℝ) < 0)]
    rw [Int.floor_eq_iff]
    constructor
    · push_cast; norm_num
    · push_cast; norm_num
  have hmmv : mmsAccelDecelMM exM5 dummyTarget exTarget5w dummyTarget = 4 := by
    rw [mmsAccelDecelMM, hsteps, show exTarget5w.defining_axis = X from rfl]
    norm_num [exM5, zeroMachine]
  have hdo : mmsDoAccel exM5 dummyTarget exTarget5w dummyTarget :=
    Or.inl (by rw [hmmv]; norm_num)
  have hd : mmsHasDecel exM5 dummyTarget exTarget5w dummyTarget := by
    refine ⟨hdo, ?_⟩
    rw [hdf, habs]
    push_cast
    norm_num
  exact ⟨by decide, hd,
    exit_speed_update exM5 dummyTarget exTarget5w dummyTarget (by decide) hd⟩

/-- C5 counterexample: the same 4-step X move at requested speed 2 has its
micro-ramps suppressed, so no decel is emitted and the target leaves
`move_machine_steps` with speed 2, although the junction speed against
the halting upcoming target is `v_out = 0`: `target.speed` is *not*
updated to `v_out` on every call. -/
theorem exit_speed_update_cex :
    (move_machine_steps exM5 dummyTarget exTarget5 dummyTarget).target.speed =
      2 ∧
    mmsNextSpeed exM5 dummyTarget exTarget5 dummyTarget = 0 ∧ (2 : ℝ) ≠ 0 := by
  have hlast : mmsLastSpeed dummyTarget exTarget5 = 0 := by
    rw [mmsLastSpeed, get_speed_for_axis, get_speed_factor_for_axis]
    norm_num [dummyTarget]
  have hnang : ¬ (180 : ℝ) < 10 := by norm_num
  have hang : |dummyTarget.angle - exTarget5.angle| = 180 := by
    rw [show dummyTarget.angle - exTarget5.angle = -(180 : ℝ) by
      norm_num [dummyTarget, exTarget5]]
    rw [abs_neg, abs_of_nonneg (by norm_num : (0 : ℝ) ≤ 180)]
  have hth : exM5.threshold_angle = 10 := by norm_num [exM5, zeroMachine]
  have hnext : mmsNextSpeed exM5 dummyTarget exTarget5 dummyTarget = 0 := by
    rw [mmsNextSpeed, hang, hth, determine_joining_speed]
    rw [show axisList = X :: [Y, Z, E, A, B, C, U, V, W] from rfl]
    rw [djsLoop_step_zero_of_one exTarget5 dummyTarget 10 180 hnang X _
      true exTarget5.speed (Or.inr (by decide)) (by decide)]
  have habs : mmsAbsSteps exTarget5 = 4 := by decide
  have haccelv : acceleration_for_move exM5 exTarget5 = 4 := by
    rw [acceleration_for_move, show exTarget5.defining_axis = X from rfl]
    norm_num [exM5, zeroMachine]
  have hpeak : mmsPeakSpeed exM5 dummyTarget exTarget5 dummyTarget = 4 := by
    rw [mmsPeakSpeed, hlast, hnext, habs, haccelv, get_peak_speed]
    rw [show (0 : ℝ) * 0 + 0 * 0 + 2 * 4 * ((4 : ℤ) : ℝ) = 32 by
      push_cast; norm_num]
    exact sqrt_thirtytwo_div_sqrt_two
  have hclamp : mmsClampedSpeed exM5 dummyTarget exTarget5 dummyTarget = 2 := by
    rw [mmsClampedSpeed, hpeak, show exTarget5.speed = (2 : ℝ) from rfl,
      if_neg (by norm_num : ¬ (4 : ℝ) < 2)]
  have hap : mmsAccelPair exM5 dummyTarget exTarget5 dummyTarget =
      (1 / 8, 2) := by
    rw [mmsAccelPair, hlast, hclamp, haccelv, habs]
    rw [if_pos (by norm_num : (0 : ℝ) < 2)]
    rw [steps_for_speed_change]
    rw [if_pos (by push_cast; norm_num : (4 : ℝ) / 2 * ((2 - 0) / 4) *
      ((2 - 0) / 4) + 0 * ((2 - 0) / 4) ≤ ((4 : ℤ) : ℝ))]
    simp only [Prod.mk.injEq]
    constructor
    · push_cast
      norm_num
    · trivial
  have hv2 : mmsSpeedAfterAccel exM5 dummyTarget exTarget5 dummyTarget = 2 := by
    rw [mmsSpeedAfterAccel, hap]
  have haf : mmsAccelFraction exM5 dummyTarget exTarget5 dummyTarget =
      1 / 8 := by
    rw [mmsAccelFraction, hap]
  have hdf : mmsDecelFraction exM5 dummyTarget exTarget5 dummyTarget =
      1 / 8 := by
    rw [mmsDecelFraction, hnext, hv2, haccelv, habs]
    rw [if_pos (by norm_num : (0 : ℝ) < 2)]
    rw [steps_for_speed_change]
    rw [if_pos (by push_cast; norm_num : -(4 : ℝ) / 2 * ((0 - 2) / -4) *
      ((0 - 2) / -4) + 2 * ((0 - 2) / -4) ≤ ((4 : ℤ) : ℝ))]
    push_cast
    norm_num
  have hsteps : mmsAccelDecelSteps exM5 dummyTarget exTarget5 dummyTarget =
      1 := by
    rw [mmsAccelDecelSteps, haf, hdf, habs]
    rw [show ((1 / 8 : ℝ) + 1 / 8) * ((4 : ℤ) : ℝ) = 1 by push_cast; norm_num]
    rw [truncInt, if_neg (by norm_num : ¬ (1 : ℝ) < 0)]
    rw [Int.floor_eq_iff]
    constructor
    · push_cast; norm_num
    · push_cast; norm_num
  have hmmv : mmsAccelDecelMM exM5 dummyTarget exTarget5 dummyTarget = 1 := by
    rw [mmsAccelDecelMM, hsteps, show exTarget5.defining_axis = X from rfl]
    norm_num [exM5, zeroMachine]
  have hdo : ¬ mmsDoAccel exM5 dummyTarget exTarget5 dummyTarget := by
    rw [mmsDoAccel, hmmv, hsteps]
    norm_num
  refine ⟨?_, hnext, by norm_num⟩
  rw [move_machine_steps, if_neg (by decide)]
  simp only
  rw [mmsFinalSpeed, if_neg (fun h => hdo h.1), hv2]

/-! ### C2 — per-axis speed ceilings -/

theorem mmtFold_invariant (m : Machine M) (prev : AxisTarget)
    (axes : Axis → ℝ) :
    ∀ (l : List Axis) (acc : ℤ × Axis),
      acc.1 = |mmtDelta m prev axes acc.2| →
      (l.foldl (fun acc i => if acc.1 < |mmtDelta m prev axes i| then
        (|mmtDelta m prev axes i|, i) else acc) acc).1 =
      |mmtDelta m prev axes
        ((l.foldl (fun acc i => if acc.1 < |mmtDelta m prev axes i| then
          (|mmtDelta m prev axes i|, i) else acc) acc).2)| := by
  intro l
  induction l with
  | nil => intro acc h; exact h
  | cons a t ih =>
    intro acc h
    simp only [List.foldl_cons]
    split_ifs with hlt
    · exact ih _ rfl
    · exact ih _ h

theorem mmtFold_bound (m : Machine M) (prev : AxisTarget) (axes : Axis → ℝ) :
    ∀ (l : List Axis) (acc : ℤ × Axis),
      acc.1 ≤ (l.foldl (fun acc i => if acc.1 < |mmtDelta m prev axes i| then
        (|mmtDelta m prev axes i|, i) else acc) acc).1 ∧
      ∀ k ∈ l, |mmtDelta m prev axes k| ≤
        (l.foldl (fun acc i => if acc.1 < |mmtDelta m prev axes i| then
          (|mmtDelta m prev axes i|, i) else acc) acc).1 := by
  intro l
  induction l with
  | nil => intro acc; exact ⟨le_refl _, by simp⟩
  | cons a t ih =>
    intro acc
    simp only [List.foldl_cons]
    constructor
    · split_ifs with hlt
      · exact le_trans hlt.le (ih _).1
      · exact (ih _).1
    · intro k hk
      rcases List.mem_cons.mp hk with rfl | hk'
      · split_ifs with hlt
        · exact (ih _).1
        · exact le_trans (not_lt.mp hlt) (ih _).1
      · split_ifs with hlt
        · exact (ih _).2 k hk'
        · exact (ih _).2 k hk'

/-- The maximum found by the defining-axis search is the absolute delta of
the chosen defining axis. -/
theorem mmtMaxSteps_eq (m : Machine M) (prev : AxisTarget) (axes : Axis → ℝ) :
    mmtMaxSteps m prev axes =
      |mmtDelta m prev axes (mmtDefining m prev axes)| := by
  rw [mmtMaxSteps, mmtDefining, mmtFold]
  rw [show axisList = X :: [Y, Z, E, A, B, C, U, V, W] from rfl]
  rw [List.foldl_cons]
  rw [if_pos (lt_of_lt_of_le (by norm_num : (-1 : ℤ) < 0) (abs_nonneg _))]
  exact mmtFold_invariant m prev axes _ _ rfl

/-- Defining-axis dominance: no axis has a larger absolute delta. -/
theorem abs_delta_le_maxSteps (m : Machine M) (prev : AxisTarget)
    (axes : Axis → ℝ) (k : Axis) :
    |mmtDelta m prev axes k| ≤ mmtMaxSteps m prev axes := by
  rw [mmtMaxSteps, mmtFold]
  exact (mmtFold_bound m prev axes axisList _).2 k (mem_axisList k)

/-- C2 (amended): the emitted per-axis speed
`speed * |delta_steps[k]| / |delta_steps[defining_axis]|` of a built
target never exceeds `max_axis_speed[defining_axis]` — the clamp is
applied on the defining axis only, so only that axis's ceiling is
guaranteed. -/
theorem axis_speed_within_defining_limit (m : Machine M) (prev : AxisTarget)
    (aux : ℕ) (f : ℝ) (axes : Axis → ℝ) (k : Axis)
    (hf : 0 ≤ f) (hspm : ∀ i, 0 < m.steps_per_mm i)
    (hmax : ∀ i, 0 ≤ m.max_axis_speed i) :
    (machineMoveTarget m prev aux f axes).speed *
        |((machineMoveTarget m prev aux f axes).delta_steps k : ℝ)| /
        |((machineMoveTarget m prev aux f axes).delta_steps
          (machineMoveTarget m prev aux f axes).defining_axis : ℝ)| ≤
      m.max_axis_speed (machineMoveTarget m prev aux f axes).defining_axis := by
  simp only [machineMoveTarget]
  by_cases hms : 0 < mmtMaxSteps m prev axes
  · have hsp0 : 0 ≤ mmtTravelSpeed m prev f axes := by
      rw [mmtTravelSpeed]
      split_ifs
      · refine mul_nonneg (mul_nonneg hf (hspm _).le) ?_
        rw [mmtEuclidFraction]
        refine div_nonneg (abs_nonneg _) ?_
        rw [euclid_distance]
        exact Real.sqrt_nonneg _
      · exact mul_nonneg hf (hspm _).le
    have hsle : mmtSpeed m prev f axes ≤
        m.max_axis_speed (mmtDefining m prev axes) := by
      rw [mmtSpeed, if_pos hms]
      split_ifs with h
      · exact le_refl _
      · exact le_of_not_lt h
    have hs0 : 0 ≤ mmtSpeed m prev f axes := by
      rw [mmtSpeed, if_pos hms]
      split_ifs
      · exact hmax _
      · exact hsp0
    have hdpos : (0 : ℝ) <
        |(mmtDelta m prev axes (mmtDefining m prev axes) : ℝ)| := by
      have h1 : 0 < |mmtDelta m prev axes (mmtDefining m prev axes)| := by
        rw [← mmtMaxSteps_eq]
        exact hms
      rw [← Int.cast_abs]
      exact_mod_cast h1
    have hratio : |(mmtDelta m prev axes k : ℝ)| ≤
        |(mmtDelta m prev axes (mmtDefining m prev axes) : ℝ)| := by
      rw [← Int.cast_abs, ← Int.cast_abs]
      have := le_trans (abs_delta_le_maxSteps m prev axes k)
        (le_of_eq (mmtMaxSteps_eq m prev axes))
      exact_mod_cast this
    calc mmtSpeed m prev f axes * |(mmtDelta m prev axes k : ℝ)| /
          |(mmtDelta m prev axes (mmtDefining m prev axes) : ℝ)|
        ≤ mmtSpeed m prev f axes *
            |(mmtDelta m prev axes (mmtDefining m prev axes) : ℝ)| /
          |(mmtDelta m prev axes (mmtDefining m prev axes) : ℝ)| := by
          gcongr
      _ = mmtSpeed m prev f axes := by
          rw [mul_div_assoc, div_self (ne_of_gt hdpos), mul_one]
      _ ≤ m.max_axis_speed (mmtDefining m prev axes) := hsle
  · rw [mmtSpeed, if_neg hms]
    simpa using hmax (mmtDefining m prev axes)

/-- C2 counterexample: a 100-step E move with a 99-step A component clamps
only against `max_axis_speed[E] = 400`, and the resulting per-axis A
speed `400 * 99 / 100 = 396` exceeds `max_axis_speed[A] = 1` by far:
other axes' ceilings are not enforced. -/
theorem axis_ceiling_cex :
    (machineMoveTarget exM2 dummyTarget 0 10 exAxes2).defining_axis = E ∧
    (machineMoveTarget exM2 dummyTarget 0 10 exAxes2).speed = 400 ∧
    (machineMoveTarget exM2 dummyTarget 0 10 exAxes2).delta_steps A = 99 ∧
    (machineMoveTarget exM2 dummyTarget 0 10 exAxes2).delta_steps E = 100 ∧
    exM2.max_axis_speed A = 1 ∧
    ¬ ((machineMoveTarget exM2 dummyTarget 0 10 exAxes2).speed *
        |((machineMoveTarget exM2 dummyTarget 0 10 exAxes2).delta_steps A : ℝ)| /
        |((machineMoveTarget exM2 dummyTarget 0 10 exAxes2).delta_steps
          (machineMoveTarget exM2 dummyTarget 0 10 exAxes2).defining_axis : ℝ)| ≤
      exM2.max_axis_speed A) := by
  have hzero : ∀ i, exAxes2 i * exM2.steps_per_mm i = 0 →
      mmtDelta exM2 dummyTarget exAxes2 i = 0 := by
    intro i h
    simp only [mmtDelta, mmtPosition, dummyTarget]
    rw [h, round2int_zero]
    norm_num
  have hdX := hzero X (by norm_num [exAxes2, exM2, zeroMachine])
  have hdY := hzero Y (by norm_num [exAxes2, exM2, zeroMachine])
  have hdZ := hzero Z (by norm_num [exAxes2, exM2, zeroMachine])
  have hdB := hzero B (by norm_num [exAxes2, exM2, zeroMachine])
  have hdC := hzero C (by norm_num [exAxes2, exM2, zeroMachine])
  have hdU := hzero U (by norm_num [exAxes2, exM2, zeroMachine])
  have hdV := hzero V (by norm_num [exAxes2, exM2, zeroMachine])
  have hdW := hzero W (by norm_num [exAxes2, exM2, zeroMachine])
  have hdE : mmtDelta exM2 dummyTarget exAxes2 E = 100 := by
    simp only [mmtDelta, mmtPosition, dummyTarget]
    rw [show exAxes2 E * exM2.steps_per_mm E = ((100 : ℤ) : ℝ) by
      norm_num [exAxes2, exM2, zeroMachine], round2int_intCast]
    norm_num
  have hdA : mmtDelta exM2 dummyTarget exAxes2 A = 99 := by
    simp only [mmtDelta, mmtPosition, dummyTarget]
    rw [show exAxes2 A * exM2.steps_per_mm A = ((99 : ℤ) : ℝ) by
      norm_num [exAxes2, exM2, zeroMachine], round2int_intCast]
    norm_num
  have hfold : mmtFold exM2 dummyTarget exAxes2 = (100, E) := by
    rw [mmtFold, show axisList = [X, Y, Z, E, A, B, C, U, V, W] from rfl]
    simp only [List.foldl_cons, List.foldl_nil]
    rw [hdX, hdY, hdZ, hdE, hdA, hdB, hdC, hdU, hdV, hdW]
    norm_num
  have hdef : mmtDefining exM2 dummyTarget exAxes2 = E := by
    rw [mmtDefining, hfold]
  have hms : mmtMaxSteps exM2 dummyTarget exAxes2 = 100 := by
    rw [mmtMaxSteps, hfold]
  have hncart : ¬ mmtIsCartesian exM2 dummyTarget exAxes2 := by
    rw [mmtIsCartesian, hdef]
    decide
  have htr : mmtTravelSpeed exM2 dummyTarget 10 exAxes2 = 400 := by
    rw [mmtTravelSpeed]
    rw [if_neg hncart, hdef]
    norm_num [exM2, zeroMachine]
  have hspeed : mmtSpeed exM2 dummyTarget 10 exAxes2 = 400 := by
    rw [mmtSpeed, if_pos (by rw [hms]; norm_num), htr, hdef]
    rw [if_neg (by norm_num [exM2, zeroMachine] :
      ¬ exM2.max_axis_speed E < (400 : ℝ))]
  refine ⟨?_, ?_, ?_, ?_, ?_, ?_⟩
  · simpa [machineMoveTarget] using hdef
  · simpa [machineMoveTarget] using hspeed
  · simpa [machineMoveTarget] using hdA
  · simpa [machineMoveTarget] using hdE
  · norm_num [exM2, zeroMachine]
  · simp only [machineMoveTarget]
    rw [hspeed, hdef, hdA, hdE]
    rw [show exM2.max_axis_speed A = 1 by norm_num [exM2, zeroMachine]]
    rw [show |((99 : ℤ) : ℝ)| = 99 by norm_num]
    rw [show |((100 : ℤ) : ℝ)| = 100 by norm_num]
    norm_num

/-- C2 witness: the amended bound applied to the same concrete move. -/
theorem axis_speed_within_defining_limit_witness :
    (0 : ℝ) ≤ 10 ∧ (∀ i, 0 < exM2.steps_per_mm i) ∧
    (∀ i, 0 ≤ exM2.max_axis_speed i) ∧
    ((machineMoveTarget exM2 dummyTarget 0 10 exAxes2).speed *
        |((machineMoveTarget exM2 dummyTarget 0 10 exAxes2).delta_steps A : ℝ)| /
        |((machineMoveTarget exM2 dummyTarget 0 10 exAxes2).delta_steps
          (machineMoveTarget exM2 dummyTarget 0 10 exAxes2).defining_axis : ℝ)| ≤
      exM2.max_axis_speed
        (machineMoveTarget exM2 dummyTarget 0 10 exAxes2).defining_axis) :=
  ⟨by norm_num,
   fun i => by cases i <;> norm_num [exM2, zeroMachine],
   fun i => by cases i <;> norm_num [exM2, zeroMachine],
   axis_speed_within_defining_limit exM2 dummyTarget 0 10 exAxes2 A
     (by norm_num) (fun i => by cases i <;> norm_num [exM2, zeroMachine])
     (fun i => by cases i <;> norm_num [exM2, zeroMachine])⟩

/-! ### C6 — Euclidean feedrate correction and clamp -/

/-- C6: for a moving target whose defining axis is Cartesian, the stored
speed is exactly
`min(feedrate * steps_per_mm[d] * (l / L), max_axis_speed[d])` where `L`
is the Euclidean length of the XYZ delta in mm and `l` the absolute
defining-axis length in mm; and when the Z delta is zero the angle is set
to `atan2(dy, dx)` in degrees (the source's `/ 3.14159265359 * 180`,
with the float-precision π literal modelled as π). -/
theorem euclid_correction (m : Machine M) (prev : AxisTarget) (aux : ℕ)
    (f : ℝ) (axes : Axis → ℝ)
    (hspm : ∀ i, 0 < m.steps_per_mm i)
    (hcart : mmtIsCartesian m prev axes)
    (hms : 0 < mmtMaxSteps m prev axes) :
    (machineMoveTarget m prev aux f axes).speed =
      min (f * m.steps_per_mm (machineMoveTarget m prev aux f axes).defining_axis *
        ((|((machineMoveTarget m prev aux f axes).delta_steps
            (machineMoveTarget m prev aux f axes).defining_axis : ℝ)| /
          m.steps_per_mm (machineMoveTarget m prev aux f axes).defining_axis) /
         euclid_distance
           (((machineMoveTarget m prev aux f axes).delta_steps X : ℝ) /
             m.steps_per_mm X)
           (((machineMoveTarget m prev aux f axes).delta_steps Y : ℝ) /
             m.steps_per_mm Y)
           (((machineMoveTarget m prev aux f axes).delta_steps Z : ℝ) /
             m.steps_per_mm Z)))
        (m.max_axis_speed (machineMoveTarget m prev aux f axes).defining_axis) ∧
    ((machineMoveTarget m prev aux f axes).delta_steps Z = 0 →
      (machineMoveTarget m prev aux f axes).angle =
        atan2 (((machineMoveTarget m prev aux f axes).delta_steps Y : ℝ) /
            m.steps_per_mm Y)
          (((machineMoveTarget m prev aux f axes).delta_steps X : ℝ) /
            m.steps_per_mm X) / Real.pi * 180) := by
  simp only [machineMoveTarget]
  constructor
  · rw [mmtSpeed, if_pos hms, mmtTravelSpeed]
    simp only [if_pos hcart]
    have hd := hspm (mmtDefining m prev axes)
    have habs : |(mmtDelta m prev axes (mmtDefining m prev axes) : ℝ) /
        m.steps_per_mm (mmtDefining m prev axes)| =
        |(mmtDelta m prev axes (mmtDefining m prev axes) : ℝ)| /
          m.steps_per_mm (mmtDefining m prev axes) := by
      rw [abs_div, abs_of_pos hd]
    rw [mmtEuclidFraction, habs, mmtX, mmtY, mmtZ]
    rcases lt_or_le (m.max_axis_speed (mmtDefining m prev axes))
      (f * m.steps_per_mm (mmtDefining m prev axes) *
        (|(mmtDelta m prev axes (mmtDefining m prev axes) : ℝ)| /
            m.steps_per_mm (mmtDefining m prev axes) /
          euclid_distance
            ((mmtDelta m prev axes X : ℝ) / m.steps_per_mm X)
            ((mmtDelta m prev axes Y : ℝ) / m.steps_per_mm Y)
            ((mmtDelta m prev axes Z : ℝ) / m.steps_per_mm Z))) with h | h
    · rw [if_pos h, min_eq_right h.le]
    · rw [if_neg (not_lt.mpr h), min_eq_left h]
  · intro hz
    have hz' : mmtZ m prev axes = 0 := by
      rw [mmtZ, hz]
      norm_num
    rw [mmtAngle, if_pos ⟨hms, hcart, hz'⟩, mmtX, mmtY]

/-- C6 witness: a 3 mm / 4 mm XY move at unit steps/mm has defining axis Y
and satisfies the Euclidean-correction formula (with `L = 5`). -/
theorem euclid_correction_witness :
    (∀ i, 0 < exM6.steps_per_mm i) ∧
    mmtIsCartesian exM6 dummyTarget exAxes6 ∧
    0 < mmtMaxSteps exM6 dummyTarget exAxes6 ∧
    ((machineMoveTarget exM6 dummyTarget 0 1 exAxes6).speed =
      min (1 * exM6.steps_per_mm
          (machineMoveTarget exM6 dummyTarget 0 1 exAxes6).defining_axis *
        ((|((machineMoveTarget exM6 dummyTarget 0 1 exAxes6).delta_steps
            (machineMoveTarget exM6 dummyTarget 0 1 exAxes6).defining_axis : ℝ)| /
          exM6.steps_per_mm
            (machineMoveTarget exM6 dummyTarget 0 1 exAxes6).defining_axis) /
         euclid_distance
           (((machineMoveTarget exM6 dummyTarget 0 1 exAxes6).delta_steps X : ℝ) /
             exM6.steps_per_mm X)
           (((machineMoveTarget exM6 dummyTarget 0 1 exAxes6).delta_steps Y : ℝ) /
             exM6.steps_per_mm Y)
           (((machineMoveTarget exM6 dummyTarget 0 1 exAxes6).delta_steps Z : ℝ) /
             exM6.steps_per_mm Z)))
        (exM6.max_axis_speed
          (machineMoveTarget exM6 dummyTarget 0 1 exAxes6).defining_axis) ∧
    ((machineMoveTarget exM6 dummyTarget 0 1 exAxes6).delta_steps Z = 0 →
      (machineMoveTarget exM6 dummyTarget 0 1 exAxes6).angle =
        atan2 (((machineMoveTarget exM6 dummyTarget 0 1 exAxes6).delta_steps Y : ℝ) /
            exM6.steps_per_mm Y)
          (((machineMoveTarget exM6 dummyTarget 0 1 exAxes6).delta_steps X : ℝ) /
            exM6.steps_per_mm X) / Real.pi * 180)) := by
  have hzero : ∀ i, exAxes6 i * exM6.steps_per_mm i = 0 →
      mmtDelta exM6 dummyTarget exAxes6 i = 0 := by
    intro i h
    simp only [mmtDelta, mmtPosition, dummyTarget]
    rw [h, round2int_zero]
    norm_num
  have hdZ := hzero Z (by norm_num [exAxes6, exM6, zeroMachine])
  have hdE := hzero E (by norm_num [exAxes6, exM6, zeroMachine])
  have hdA := hzero A (by norm_num [exAxes6, exM6, zeroMachine])
  have hdB := hzero B (by norm_num [exAxes6, exM6, zeroMachine])
  have hdC := hzero C (by norm_num [exAxes6, exM6, zeroMachine])
  have hdU := hzero U (by norm_num [exAxes6, exM6, zeroMachine])
  have hdV := hzero V (by norm_num [exAxes6, exM6, zeroMachine])
  have hdW := hzero W (by norm_num [exAxes6, exM6, zeroMachine])
  have hdX : mmtDelta exM6 dummyTarget exAxes6 X = 3 := by
    simp only [mmtDelta, mmtPosition, dummyTarget]
    rw [show exAxes6 X * exM6.steps_per_mm X = ((3 : ℤ) : ℝ) by
      norm_num [exAxes6, exM6, zeroMachine], round2int_intCast]
    norm_num
  have hdY : mmtDelta exM6 dummyTarget exAxes6 Y = 4 := by
    simp only [mmtDelta, mmtPosition, dummyTarget]
    rw [show exAxes6 Y * exM6.steps_per_mm Y = ((4 : ℤ) : ℝ) by
      norm_num [exAxes6, exM6, zeroMachine], round2int_intCast]
    norm_num
  have hfold : mmtFold exM6 dummyTarget exAxes6 = (4, Y) := by
    rw [mmtFold, show axisList = [X, Y, Z, E, A, B, C, U, V, W] from rfl]
    simp only [List.foldl_cons, List.foldl_nil]
    rw [hdX, hdY, hdZ, hdE, hdA, hdB, hdC, hdU, hdV, hdW]
    norm_num
  have hcart : mmtIsCartesian exM6 dummyTarget exAxes6 := by
    rw [mmtIsCartesian, mmtDefining, hfold]
    right
    left
    rfl
  have hms : 0 < mmtMaxSteps exM6 dummyTarget exAxes6 := by
    rw [mmtMaxSteps, hfold]
    norm_num
  exact ⟨fun i => by cases i <;> norm_num [exM6, zeroMachine], hcart, hms,
    euclid_correction exM6 dummyTarget 0 1 exAxes6
      (fun i => by cases i <;> norm_num [exM6, zeroMachine]) hcart hms⟩

/-! ### C7 — atomic rejection of unhomed moves -/

/-- C7: with `require_homing` configured and homing state `NEVER_HOMED`,
both `coordinated_move` and `rapid_move` return `false`, append exactly
the please-home diagnostic (which contains "home"), and leave the
planning buffer untouched. -/
theorem unhomed_move_rejected (m : Machine M) (s : MachineState) (feed : ℝ)
    (axes : Axis → ℝ) (hreq : m.require_homing = true)
    (hnever : s.homing_state = HomingState.NEVER_HOMED) :
    coordinated_move m s feed axes =
      (false, { s with msgs := s.msgs ++ [homeFirstMsg] }) ∧
    rapid_move m s feed axes =
      (false, { s with msgs := s.msgs ++ [homeFirstMsg] }) ∧
    (coordinated_move m s feed axes).2.buffer = s.buffer ∧
    (rapid_move m s feed axes).2.buffer = s.buffer ∧
    "home".data <:+: homeFirstMsg.data := by
  have hh : test_homing_status_ok m s = (false, [homeFirstMsg]) := by
    rw [test_homing_status_ok, if_neg (by rw [hreq]; simp),
      if_neg (by rw [hnever]; simp)]
  have hc : coordinated_move m s feed axes =
      (false, { s with msgs := s.msgs ++ [homeFirstMsg] }) := by
    rw [coordinated_move, hh]
    rfl
  have hr : rapid_move m s feed axes =
      (false, { s with msgs := s.msgs ++ [homeFirstMsg] }) := by
    rw [rapid_move, hh]
    rfl
  refine ⟨hc, hr, ?_, ?_, ?_⟩
  · rw [hc]
  · rw [hr]
  · exact ⟨"// ERROR: please ".data, " machine first (G28).\n".data, by decide⟩

/-- C7 witness: the rejection applied to a freshly constructed state of a
machine that requires homing. -/
theorem unhomed_move_rejected_witness :
    exM7.require_homing = true ∧
    exS7.homing_state = HomingState.NEVER_HOMED ∧
    (coordinated_move exM7 exS7 100 (fun _ => 1) =
      (false, { exS7 with msgs := exS7.msgs ++ [homeFirstMsg] }) ∧
    rapid_move exM7 exS7 100 (fun _ => 1) =
      (false, { exS7 with msgs := exS7.msgs ++ [homeFirstMsg] }) ∧
    (coordinated_move exM7 exS7 100 (fun _ => 1)).2.buffer = exS7.buffer ∧
    (rapid_move exM7 exS7 100 (fun _ => 1)).2.buffer = exS7.buffer ∧
    "home".data <:+: homeFirstMsg.data) :=
  ⟨rfl, rfl, unhomed_move_rejected exM7 exS7 100 (fun _ => 1) rfl rfl⟩

/-! ### C8 — speed-factor update rule -/

/-- C8: `set_speed_factor` first replaces a negative factor `f` by `1 + f`;
if the result is below 0.005 the stored program speed factor is left
unchanged and the request is only logged, otherwise it is stored exactly;
and `coordinated_move` multiplies the remembered feedrate by the stored
factor when invoking `machine_move`. -/
theorem speed_factor_update (m : Machine M) (s : MachineState) (f : ℝ)
    (feed : ℝ) (axes : Axis → ℝ) :
    ((if f < 0 then 1 + f else f) < 0.005 →
      (set_speed_factor s f).prog_speed_factor = s.prog_speed_factor ∧
      (set_speed_factor s f).msgs = s.msgs ++ [m220Msg] ∧
      (set_speed_factor s f).buffer = s.buffer) ∧
    (0.005 ≤ (if f < 0 then 1 + f else f) →
      (set_speed_factor s f).prog_speed_factor =
        (if f < 0 then 1 + f else f) ∧
      (set_speed_factor s f).msgs = s.msgs) ∧
    ((test_homing_status_ok m (set_speed_factor s f)).1 = true →
      (test_within_machine_limits m (set_speed_factor s f) axes).1 = true →
      ¬ 0 < feed →
      coordinated_move m (set_speed_factor s f) feed axes =
        (true, machine_move m (set_speed_factor s f)
          ((set_speed_factor s f).prog_speed_factor *
            (set_speed_factor s f).current_feedrate) axes)) := by
  refine ⟨?_, ?_, ?_⟩
  · intro hlow
    rw [set_speed_factor, if_pos hlow]
    exact ⟨rfl, rfl, rfl⟩
  · intro hge
    rw [set_speed_factor, if_neg (not_lt.mpr hge)]
    exact ⟨rfl, rfl⟩
  · intro h1 h2 h3
    rw [coordinated_move, if_neg (by rw [h1]; simp),
      if_neg (by rw [h2]; simp), if_neg h3]

/-- C8 witness: M220 S-10 stores factor 0.9 exactly. -/
theorem speed_factor_update_witness :
    (0.005 : ℝ) ≤ (if (-(1 : ℝ) / 10) < 0 then 1 + (-(1 : ℝ) / 10)
      else (-(1 : ℝ) / 10)) ∧
    (set_speed_factor exS7 (-(1 : ℝ) / 10)).prog_speed_factor =
      (if (-(1 : ℝ) / 10) < 0 then 1 + (-(1 : ℝ) / 10)
        else (-(1 : ℝ) / 10)) ∧
    (set_speed_factor exS7 (-(1 : ℝ) / 10)).msgs = exS7.msgs :=
  ⟨by norm_num,
   (speed_factor_update exM5 exS7 (-(1 : ℝ) / 10) 0 (fun _ => 0)).2.1
     (by norm_num)⟩

/-! ### C9 — shape of the halt sentinel -/

/-- `issue_motor_move_if_possible` only rewrites the second-oldest entry
and pops the front: the back of the buffer is untouched. -/
theorem issue_getLast (m : Machine M) (s : MachineState) :
    (issue_motor_move_if_possible m s).buffer.getLast? =
      s.buffer.getLast? := by
  rcases hb : s.buffer with _ | ⟨t0, _ | ⟨t1, _ | ⟨t2, rest⟩⟩⟩ <;>
    simp [issue_motor_move_if_possible, hb]

/-- `issue_motor_move_if_possible` never grows the buffer. -/
theorem issue_length_le (m : Machine M) (s : MachineState) :
    (issue_motor_move_if_possible m s).buffer.length ≤ s.buffer.length := by
  rcases hb : s.buffer with _ | ⟨t0, _ | ⟨t1, _ | ⟨t2, rest⟩⟩⟩ <;>
    simp [issue_motor_move_if_possible, hb]

/-- C9: `bring_path_to_halt` appends exactly one `AxisTarget` — it becomes
the back of the buffer, and the buffer grows by at most that one entry —
with the previous entry's `position_steps`, all-zero `delta_steps`,
defining axis `AXIS_X`, speed 0, and the current aux mask. -/
theorem halt_sentinel_shape (m : Machine M) (s : MachineState)
    (junkAngle : ℝ) :
    (bring_path_to_halt m s junkAngle).buffer.getLast? =
      some (haltSentinel (back s.buffer) s.aux_bits junkAngle) ∧
    (haltSentinel (back s.buffer) s.aux_bits junkAngle).position_steps =
      (back s.buffer).position_steps ∧
    (haltSentinel (back s.buffer) s.aux_bits junkAngle).delta_steps =
      (fun _ => 0) ∧
    (haltSentinel (back s.buffer) s.aux_bits junkAngle).defining_axis = X ∧
    (haltSentinel (back s.buffer) s.aux_bits junkAngle).speed = 0 ∧
    (haltSentinel (back s.buffer) s.aux_bits junkAngle).aux_bits =
      s.aux_bits ∧
    (bring_path_to_halt m s junkAngle).buffer.length ≤
      s.buffer.length + 1 := by
  refine ⟨?_, rfl, rfl, rfl, rfl, rfl, ?_⟩
  · rw [bring_path_to_halt, issue_getLast]
    show (s.buffer ++
      [haltSentinel (back s.buffer) s.aux_bits junkAngle]).getLast? = _
    exact List.getLast?_concat _
  · rw [bring_path_to_halt]
    calc (issue_motor_move_if_possible m
          { s with buffer := s.buffer ++
              [haltSentinel (back s.buffer) s.aux_bits junkAngle] }).buffer.length
        ≤ (s.buffer ++
            [haltSentinel (back s.buffer) s.aux_bits junkAngle]).length :=
          issue_length_le m _
      _ = s.buffer.length + 1 := by simp

/-! ### C10 — go_home unconditionally reaches HOMED -/

/-- C10: `go_home` sets the homing state to `HOMED` on return for every
bitmap — the assignment is unconditional, even when no axis is selected or
no selected axis has a homing endstop (in which case `home_axis` does
nothing) — so the `require_homing` check passes after any `go_home`. -/
theorem go_home_sets_homed (m : Machine M) (s : MachineState)
    (axes_bitmap : ℕ) (junkAngle : ℝ) :
    (go_home m s axes_bitmap junkAngle).homing_state = HomingState.HOMED ∧
    (test_homing_status_ok m (go_home m s axes_bitmap junkAngle)).1 = true ∧
    (∀ (s2 : MachineState) (axis : Axis), (GetHomeEndstop m axis).2.2 = 0 →
      home_axis m s2 axis = s2) := by
  have hst : (go_home m s axes_bitmap junkAngle).homing_state =
      HomingState.HOMED := rfl
  refine ⟨hst, ?_, ?_⟩
  · rw [test_homing_status_ok, hst]
    split_ifs with h1 h2
    · rfl
    · rfl
    · exact absurd (by decide :
        HomingState.HOMED ≠ HomingState.NEVER_HOMED) h2
  · intro s2 axis h
    rw [home_axis, if_pos h]

/-- C10 witness: a concrete `go_home` call (empty bitmap) ends `HOMED` and
passes the homing check. -/
theorem go_home_sets_homed_witness :
    (go_home exM7 exS7 0 0).homing_state = HomingState.HOMED ∧
    (test_homing_status_ok exM7 (go_home exM7 exS7 0 0)).1 = true ∧
    (∀ (s2 : MachineState) (axis : Axis),
      (GetHomeEndstop exM7 axis).2.2 = 0 → home_axis exM7 s2 axis = s2) :=
  go_home_sets_homed exM7 exS7 0 0

end BeagleG